import Mathlib

/-!
# webcon: shared-port connection demultiplexer and HTTP request dispatch

A shallow embedding of `extension.cpp`.

* The engine, the operating system and libmicrohttpd are external.  Every call
  into them is recorded, in program order, in an event trace carried by the
  state; the values they return are supplied by an environment record.
* `unsigned char` values are `Fin 256`; wherever the source computes with them
  they are promoted to unbounded naturals, as C++ promotes them to `int`.
* `int` and `ssize_t` values are integers.  The only arithmetic on them is
  `pendingSocket->timeout++`, embedded with two's-complement wrap-around.
* Console logging (`rootconsole->ConsolePrint`) has no effect on the state and
  is left out of the trace.
-/

namespace Webcon

/-! ## Data model -/

/-- An `unsigned char`. -/
abbrev Byte := Fin 256

/-- The peek buffer `unsigned char buffer[12]`. -/
abbrev Buffer := Fin 12 → Byte

/-- A `sockaddr` value as filled in by `accept`; its layout is never inspected. -/
abbrev sockaddr := Nat

/-- A `netadr_t` value; its layout is never inspected. -/
abbrev netadr_t := Nat

/-- The struct `PendingSocket`. -/
structure PendingSocket where
  timeout : Int
  socket : Int
  socketAddress : sockaddr
  socketAddressLength : Nat
  address : netadr_t
deriving DecidableEq, Repr

/-- The struct `CSocketCreator::AcceptedSocket`; `data` is the `void *`, `0` for `NULL`. -/
structure AcceptedSocket where
  socket : Int
  address : netadr_t
  data : Nat
deriving DecidableEq, Repr

/-- The two methods of `ISocketCreatorListener` the extension calls.
`OnSocketAccepted` yields the pointer the listener leaves in `*data`. -/
structure ISocketCreatorListener where
  ShouldAcceptSocket : Int → netadr_t → Bool
  OnSocketAccepted : Int → netadr_t → Nat

/-- The socket options set on a freshly accepted socket. -/
inductive SockOpt
  | TCP_NODELAY
  | SO_REUSEADDR
deriving DecidableEq, Repr

/-- External calls made by the demultiplexer, in the order they are made. -/
inductive Event
  | accept (listenSocket : Int) (result : Int)
  | setsockopt (socket : Int) (opt : SockOpt)
  | ioctlsocket (socket : Int)
  | ShouldAcceptSocket (socket : Int) (address : netadr_t)
  | closesocket (socket : Int)
  | recv (socket : Int)
  | HandleFailedRconAuth (address : netadr_t)
  | HandleFailedRconAuthFunction (address : netadr_t)
  | MHD_add_connection (socket : Int) (addr : sockaddr) (addrlen : Nat)
  | OnSocketAccepted (socket : Int) (address : netadr_t)
  | MHD_run
deriving DecidableEq, Repr

/-- What `accept(listenSocket, &socketAddress, &socketAddressLength)` leaves behind. -/
structure AcceptResult where
  socket : Int
  socketAddress : sockaddr
  socketAddressLength : Nat

/-- What `recv(socket, buffer, sizeof(buffer), MSG_PEEK)` leaves behind: the
return value, whether `SocketWouldBlock()` holds afterwards, and the contents
of `buffer` after the call.  The loop reads `buffer` only when `ret` is not
below 12, that is when the call has filled all 12 bytes; what a shorter read
leaves in it (bytes of an earlier iteration included) is never inspected. -/
structure RecvResult where
  ret : Int
  wouldBlock : Bool
  buffer : Buffer

/-- The answers of the operating system and the engine during one call of the
`ProcessAccept` detour.  `accept` is keyed by the listening socket,
`ioctlsocket` and `recv` by the socket they are called on: within one call each
registry entry is peeked once, and a peek does not consume, so one answer per
descriptor describes the call. -/
structure Env where
  accept : Int → AcceptResult
  ioctlsocket : Int → Int
  SetFromSockadr : sockaddr → netadr_t
  recv : Int → RecvResult

/-- The globals of the extension and the members of the hooked `CSocketCreator`
that the demultiplexer reads or writes.  `rconServer` and
`HandleFailedRconAuthFunction` record whether the pointer is non-null. -/
structure World where
  shouldHandleProcessAccept : Bool
  rconServer : Bool
  HandleFailedRconAuthFunction : Bool
  listener : Option ISocketCreatorListener
  acceptedSockets : List AcceptedSocket
  listenSocket : Int
  pendingSockets : List PendingSocket
  events : List Event

/-- Append one external call to the trace. -/
def World.emit (w : World) (e : Event) : World :=
  { w with events := w.events ++ [e] }

/-- The call `pendingSockets.Remove(i)`: order-preserving removal. -/
def World.Remove (w : World) (i : Nat) : World :=
  { w with pendingSockets := w.pendingSockets.eraseIdx i }

/-- The events a world has gained over an earlier one. -/
def emitted (w w' : World) : List Event :=
  w'.events.drop w.events.length

/-- Two's-complement wrap of an integer into the range of `int` (32 bits); it is
the identity on that range.  The registry only ever holds counters from 0 to
1000, so `timeout++` never leaves the range in a run of the program. -/
def wrapInt (x : Int) : Int :=
  (x + 2147483648) % 4294967296 - 2147483648

/-! ## The acceptor -/

/-- The wrapper `CRConServer::HandleFailedRconAuth`: calls the engine function
when its address was found, does nothing otherwise. -/
def CRConServer.HandleFailedRconAuth (w : World) (address : netadr_t) : World :=
  if !w.HandleFailedRconAuthFunction then w
  else w.emit (.HandleFailedRconAuthFunction address)

/-- The function `CSocketCreator::ProcessAccept`: one non-blocking `accept`,
socket tuning, the admission check, and the append of a `PendingSocket` with
`timeout = 0`. -/
def CSocketCreator.ProcessAccept (env : Env) (w : World) : World :=
  let r := env.accept w.listenSocket
  let socket := r.socket
  let w := w.emit (.accept w.listenSocket socket)
  if socket = -1 then w
  else
    let w := w.emit (.setsockopt socket .TCP_NODELAY)
    let w := w.emit (.setsockopt socket .SO_REUSEADDR)
    let w := w.emit (.ioctlsocket socket)
    if env.ioctlsocket socket = -1 then w.emit (.closesocket socket)
    else
      let address := env.SetFromSockadr r.socketAddress
      let pendingSocket : PendingSocket :=
        { timeout := 0, socket := socket, socketAddress := r.socketAddress,
          socketAddressLength := r.socketAddressLength, address := address }
      match w.listener with
      | some l =>
        let w := w.emit (.ShouldAcceptSocket socket address)
        if !l.ShouldAcceptSocket socket address then w.emit (.closesocket socket)
        else { w with pendingSockets := w.pendingSockets ++ [pendingSocket] }
      | none => { w with pendingSockets := w.pendingSockets ++ [pendingSocket] }

/-- The function `CSocketCreator::HandSocketToEngine`. -/
def CSocketCreator.HandSocketToEngine (w : World) (pendingSocket : PendingSocket) : World :=
  let acceptedSocket : AcceptedSocket :=
    { socket := pendingSocket.socket, address := pendingSocket.address, data := 0 }
  match w.listener with
  | some l =>
    let w := { w with acceptedSockets := w.acceptedSockets ++
      [{ acceptedSocket with
          data := l.OnSocketAccepted acceptedSocket.socket acceptedSocket.address }] }
    w.emit (.OnSocketAccepted acceptedSocket.socket acceptedSocket.address)
  | none => { w with acceptedSockets := w.acceptedSockets ++ [acceptedSocket] }

/-! ## The classifier patterns -/

/-- The local `isHttp`: bytes 0, 1 and 2 lie in `'A'..'Z'` (65..90) or
`'a'..'z'` (97..122). -/
def isHttp (buffer : Buffer) : Bool :=
  (((buffer 0).val ≥ 65 && (buffer 0).val ≤ 90) || ((buffer 0).val ≥ 97 && (buffer 0).val ≤ 122)) &&
  (((buffer 1).val ≥ 65 && (buffer 1).val ≤ 90) || ((buffer 1).val ≥ 97 && (buffer 1).val ≤ 122)) &&
  (((buffer 2).val ≥ 65 && (buffer 2).val ≤ 90) || ((buffer 2).val ≥ 97 && (buffer 2).val ≤ 122))

/-- The local `isHttps`; the length comparison is done on promoted values. -/
def isHttps (buffer : Buffer) : Bool :=
  (buffer 0).val == 0x16 && (buffer 1).val == 0x03 && (buffer 5).val == 0x01 &&
  (buffer 6).val == 0x00 &&
  (((buffer 3).val * 256) + (buffer 4).val) == (((buffer 7).val * 256) + (buffer 8).val + 4)

/-- The local `isRcon`. -/
def isRcon (buffer : Buffer) : Bool :=
  (buffer 2).val == 0x00 && (buffer 3).val == 0x00 &&
  ((buffer 8).val == 0x03 && (buffer 9).val == 0x00 && (buffer 10).val == 0x00 &&
   (buffer 11).val == 0x00)

/-! ## The scan -/

/-- One iteration of the `for` loop of the `ProcessAccept` detour, at index `i`. -/
def scanStep (env : Env) (i : Nat) (w : World) : World :=
  match w.pendingSockets[i]? with
  | none => w
  | some pendingSocket =>
    let r := env.recv pendingSocket.socket
    let w := w.emit (.recv pendingSocket.socket)
    if r.ret = 0 then
      (w.emit (.closesocket pendingSocket.socket)).Remove i
    else if r.ret = -1 && !r.wouldBlock then
      (w.emit (.closesocket pendingSocket.socket)).Remove i
    else if r.ret < 12 then
      let timeout := wrapInt (pendingSocket.timeout + 1)
      let w := { w with pendingSockets :=
        w.pendingSockets.set i { pendingSocket with timeout := timeout } }
      if timeout > 1000 then
        let w := if w.rconServer then
            CRConServer.HandleFailedRconAuth
              (w.emit (.HandleFailedRconAuth pendingSocket.address)) pendingSocket.address
          else w
        (w.emit (.closesocket pendingSocket.socket)).Remove i
      else w
    else
      let buffer := r.buffer
      let w :=
        if isHttp buffer || isHttps buffer then
          w.emit (.MHD_add_connection pendingSocket.socket pendingSocket.socketAddress
            pendingSocket.socketAddressLength)
        else if isRcon buffer then
          CSocketCreator.HandSocketToEngine w pendingSocket
        else
          let w := if w.rconServer then
              CRConServer.HandleFailedRconAuth
                (w.emit (.HandleFailedRconAuth pendingSocket.address)) pendingSocket.address
            else w
          w.emit (.closesocket pendingSocket.socket)
      w.Remove i

/-- The loop `for (int i = count - 1; i >= 0; --i)`: `scanLoop env n` runs the
iterations `n - 1, …, 0`. -/
def scanLoop (env : Env) : Nat → World → World
  | 0, w => w
  | i + 1, w => scanLoop env i (scanStep env i w)

/-- The scan of the `ProcessAccept` detour: `count` is read once, then the loop runs. -/
def scan (env : Env) (w : World) : World :=
  let count := w.pendingSockets.length
  scanLoop env count w

/-- The `ProcessAccept` detour.  `original` is the engine's own function, used
while the guard flag is off. -/
def ProcessAccept (original : World → World) (env : Env) (w : World) : World :=
  if !w.shouldHandleProcessAccept then original w
  else
    let w := CSocketCreator.ProcessAccept env w
    let w := scan env w
    w.emit .MHD_run

/-- The `RunFrame` detour: remembers the server, arms the guard flag around the
engine's own frame function. -/
def RunFrame (original : World → World) (w : World) : World :=
  let w := { w with rconServer := true }
  let w := { w with shouldHandleProcessAccept := true }
  let w := original w
  { w with shouldHandleProcessAccept := false }

/-- A buffer from a list of bytes (missing positions are zero). -/
def bufferOf (l : List Byte) : Buffer := fun i => l.getD i.val 0

/-- The world in which `p` is the only pending socket and nothing has been
accepted or traced yet; the other globals are those of `w`. -/
def World.solo (w : World) (p : PendingSocket) : World :=
  { w with pendingSockets := [p], acceptedSockets := [], events := [] }

/-- The loop body run on `p` alone: what one iteration does with the entry `p`. -/
def entry (env : Env) (w : World) (p : PendingSocket) : World :=
  scanStep env 0 (w.solo p)

/-- The ways one iteration of the scan can end for the entry it looks at. -/
inductive Verdict
  | peerClosed
  | recvError
  | pending
  | timedOut
  | http
  | rcon
  | unknown
deriving DecidableEq, Repr

/-- The branch the loop body takes for entry `p` when the peek answers `r`. -/
def verdict (r : RecvResult) (p : PendingSocket) : Verdict :=
  if r.ret = 0 then .peerClosed
  else if r.ret = -1 && !r.wouldBlock then .recvError
  else if r.ret < 12 then
    if wrapInt (p.timeout + 1) > 1000 then .timedOut else .pending
  else if isHttp r.buffer || isHttps r.buffer then .http
  else if isRcon r.buffer then .rcon
  else .unknown

/-- The calls made for a failed attempt from `address`. -/
def failedAttempt (w : World) (address : netadr_t) : List Event :=
  if w.rconServer then
    Event.HandleFailedRconAuth address ::
      (if w.HandleFailedRconAuthFunction then [Event.HandleFailedRconAuthFunction address]
       else [])
  else []

/-- The calls made after the peek in each branch. -/
def verdictEvents (w : World) (p : PendingSocket) : Verdict → List Event
  | .peerClosed => [Event.closesocket p.socket]
  | .recvError => [Event.closesocket p.socket]
  | .pending => []
  | .timedOut => failedAttempt w p.address ++ [Event.closesocket p.socket]
  | .http => [Event.MHD_add_connection p.socket p.socketAddress p.socketAddressLength]
  | .rcon =>
    match w.listener with
    | some _ => [Event.OnSocketAccepted p.socket p.address]
    | none => []
  | .unknown => failedAttempt w p.address ++ [Event.closesocket p.socket]

/-- What is left of the entry in the registry in each branch. -/
def verdictPending (p : PendingSocket) : Verdict → List PendingSocket
  | .pending => [{ p with timeout := wrapInt (p.timeout + 1) }]
  | _ => []

/-- What is appended to `acceptedSockets` in each branch. -/
def verdictAccepted (w : World) (p : PendingSocket) : Verdict → List AcceptedSocket
  | .rcon =>
    match w.listener with
    | some l => [{ socket := p.socket, address := p.address,
                   data := l.OnSocketAccepted p.socket p.address }]
    | none => [{ socket := p.socket, address := p.address, data := 0 }]
  | _ => []

/-- The entries a world's `acceptedSockets` has gained over an earlier one. -/
def handedToEngine (w w' : World) : List AcceptedSocket :=
  w'.acceptedSockets.drop w.acceptedSockets.length

/-- An ASCII letter, `'A'..'Z'` or `'a'..'z'`, as the classifier description words it. -/
def isAsciiLetter (c : Byte) : Prop :=
  (65 ≤ c.val ∧ c.val ≤ 90) ∨ (97 ≤ c.val ∧ c.val ≤ 122)

instance (c : Byte) : Decidable (isAsciiLetter c) := by
  unfold isAsciiLetter; infer_instance

/-- Whether `CSocketCreator::ProcessAccept` reaches the append: `accept` found a
connection, the socket could be made non-blocking, and the listener (if any)
did not refuse it. -/
def admits (env : Env) (w : World) : Bool :=
  (env.accept w.listenSocket).socket != -1 &&
  env.ioctlsocket (env.accept w.listenSocket).socket != -1 &&
  (match w.listener with
   | some l => l.ShouldAcceptSocket (env.accept w.listenSocket).socket
       (env.SetFromSockadr (env.accept w.listenSocket).socketAddress)
   | none => true)

/-- The entry `CSocketCreator::ProcessAccept` appends when it admits the connection. -/
def newPending (env : Env) (w : World) : PendingSocket :=
  { timeout := 0, socket := (env.accept w.listenSocket).socket,
    socketAddress := (env.accept w.listenSocket).socketAddress,
    socketAddressLength := (env.accept w.listenSocket).socketAddressLength,
    address := env.SetFromSockadr (env.accept w.listenSocket).socketAddress }

/-- The entries `CSocketCreator::ProcessAccept` appends: one or none. -/
def admitted (env : Env) (w : World) : List PendingSocket :=
  if admits env w then [newPending env w] else []

/-- The calls `CSocketCreator::ProcessAccept` makes. -/
def acceptEvents (env : Env) (w : World) : List Event :=
  Event.accept w.listenSocket (env.accept w.listenSocket).socket ::
    (if (env.accept w.listenSocket).socket = -1 then []
     else
      [Event.setsockopt (env.accept w.listenSocket).socket .TCP_NODELAY,
       Event.setsockopt (env.accept w.listenSocket).socket .SO_REUSEADDR,
       Event.ioctlsocket (env.accept w.listenSocket).socket] ++
      (if env.ioctlsocket (env.accept w.listenSocket).socket = -1 then
        [Event.closesocket (env.accept w.listenSocket).socket]
       else
        match w.listener with
        | some l =>
          Event.ShouldAcceptSocket (env.accept w.listenSocket).socket
              (env.SetFromSockadr (env.accept w.listenSocket).socketAddress) ::
            (if l.ShouldAcceptSocket (env.accept w.listenSocket).socket
                (env.SetFromSockadr (env.accept w.listenSocket).socketAddress) then []
             else [Event.closesocket (env.accept w.listenSocket).socket])
        | none => []))

/-- The socket a `recv` event was called on. -/
def recvSocket : Event → Option Int
  | .recv s => some s
  | _ => none

/-- A short read, in the words of the timeout rule: 1 to 11 bytes, or `-1`
with would-block. -/
def shortRead (r : RecvResult) : Prop :=
  (1 ≤ r.ret ∧ r.ret ≤ 11) ∨ (r.ret = -1 ∧ r.wouldBlock = true)

instance (r : RecvResult) : Decidable (shortRead r) := by
  unfold shortRead; infer_instance

/-- The outcome "short read without timeout" for entry `p`: the peek is neither
a close nor a hard error, returns fewer than 12 bytes, and the incremented
counter does not exceed 1000. -/
def staysPending (r : RecvResult) (p : PendingSocket) : Bool :=
  r.ret != 0 && !(r.ret == -1 && !r.wouldBlock) && decide (r.ret < 12) &&
    !decide (p.timeout + 1 > 1000)

/-- The entry with its counter incremented by one. -/
def bumped (p : PendingSocket) : PendingSocket :=
  { p with timeout := p.timeout + 1 }

/-- The state after `n` calls of the detour, call `k` answered by `envs k`. -/
def run (original : World → World) (envs : Nat → Env) : Nat → World → World
  | 0, w => w
  | n + 1, w => ProcessAccept original (envs n) (run original envs n w)

/-- Whether an event is the close of socket `s`. -/
def isClose (s : Int) : Event → Bool
  | .closesocket s' => s' == s
  | _ => false

/-- Whether an event hands socket `s` to the HTTP server. -/
def isAddConnection (s : Int) : Event → Bool
  | .MHD_add_connection s' _ _ => s' == s
  | _ => false

/-- How many times socket `s` is closed in a trace. -/
def closeCount (s : Int) (evs : List Event) : Nat :=
  (evs.filter (isClose s)).length

/-- How many times socket `s` is handed to the HTTP server in a trace. -/
def httpCount (s : Int) (evs : List Event) : Nat :=
  (evs.filter (isAddConnection s)).length

/-- How many of the given `acceptedSockets` entries carry socket `s`. -/
def engineCount (s : Int) (acc : List AcceptedSocket) : Nat :=
  (acc.filter (fun a => decide (a.socket = s))).length

/-! ## The HTTP resource layer: handler registration and request dispatch -/

/-- A `Handle_t`. -/
abbrev Handle_t := Nat

/-- The SDK constant `BAD_HANDLE`. -/
def BAD_HANDLE : Handle_t := 0

/-- The libmicrohttpd constant `MHD_YES`. -/
def MHD_YES : Int := 1

/-- The libmicrohttpd constant `MHD_HTTP_NOT_FOUND`. -/
def MHD_HTTP_NOT_FOUND : Nat := 404

/-- The libmicrohttpd constant `MHD_HTTP_INTERNAL_SERVER_ERROR`. -/
def MHD_HTTP_INTERNAL_SERVER_ERROR : Nat := 500

/-- The two fixed responses built in `SDK_OnLoad`. -/
inductive Response
  | responseNotFound
  | responseInternalServerError
deriving DecidableEq, Repr

/-- The struct `PluginRequestHandler`; `callback` identifies the forward. -/
structure PluginRequestHandler where
  callback : Nat
  name : String
  description : String
deriving DecidableEq, Repr

/-- External calls made by registration and dispatch, in the order they are made. -/
inductive HttpEvent
  | CreateForwardEx (forward : Nat)
  | AddFunction (forward : Nat) (context : Nat) (function : Nat)
  | ReleaseForward (forward : Nat)
  | PushCell (forward : Nat) (cell : Handle_t)
  | PushString (forward : Nat) (value : String)
  | Execute (forward : Nat)
  | MHD_queue_response (connection : Nat) (status : Nat) (response : Response)
deriving DecidableEq, Repr

/-- The answers of the scripting host and of libmicrohttpd during one native
call or one request: the forward `CreateForwardEx` returns, the function count
of a forward, the handle stored in a connection's socket context, the cell a
forward's `Execute` writes to `result` (given the pushed arguments), and the
return value of `MHD_queue_response`. -/
structure HttpEnv where
  CreateForwardEx : Nat
  GetFunctionCount : Nat → Nat
  socket_context : Nat → Handle_t
  Execute : Nat → Handle_t → String → String → Int
  MHD_queue_response : Nat → Nat → Response → Int

/-- The global `defaultHandler` and the trace. -/
structure HttpState where
  defaultHandler : Option PluginRequestHandler
  events : List HttpEvent
deriving DecidableEq, Repr

/-- Append one external call to the trace. -/
def HttpState.emit (st : HttpState) (e : HttpEvent) : HttpState :=
  { st with events := st.events ++ [e] }

/-- The events a state has gained over an earlier one. -/
def httpEmitted (st st' : HttpState) : List HttpEvent :=
  st'.events.drop st.events.length

/-- The constructor of `PluginRequestHandler`. -/
def PluginRequestHandler.new (env : HttpEnv) (context : Nat) (function : Nat)
    (name description : String) (st : HttpState) : PluginRequestHandler × HttpState :=
  let callback := env.CreateForwardEx
  let st := st.emit (.CreateForwardEx callback)
  let st := st.emit (.AddFunction callback context function)
  ({ callback := callback, name := name, description := description }, st)

/-- The destructor of `PluginRequestHandler`: releases the forward. -/
def PluginRequestHandler.delete (h : PluginRequestHandler) (st : HttpState) : HttpState :=
  st.emit (.ReleaseForward h.callback)

/-- The method `PluginRequestHandler::Execute`. -/
def PluginRequestHandler.Execute (env : HttpEnv) (h : PluginRequestHandler) (connection : Nat)
    (method url : String) (st : HttpState) : Bool × HttpState :=
  let handle := env.socket_context connection
  if handle = BAD_HANDLE then (false, st)
  else
    let st := st.emit (.PushCell h.callback handle)
    let st := st.emit (.PushString h.callback method)
    let st := st.emit (.PushString h.callback url)
    let result := env.Execute h.callback handle method url
    let st := st.emit (.Execute h.callback)
    (result != 0, st)

/-- The native `Web_RegisterRequestHandler`; `id`, `name` and `description`
are the strings read from `params[1]`, `params[3]`, `params[4]`, and
`function` is `params[2]`. -/
def Web_RegisterRequestHandler (env : HttpEnv) (context : Nat) (id : String) (function : Nat)
    (name description : String) (st : HttpState) : Int × HttpState :=
  if id.length = 0 then (0, st)
  else
    let st := match st.defaultHandler with
      | some h => h.delete st
      | none => st
    let r := PluginRequestHandler.new env context function name description st
    (1, { r.2 with defaultHandler := some r.1 })

/-- The function `DefaultConnectionHandler`. -/
def DefaultConnectionHandler (env : HttpEnv) (connection : Nat) (url method : String)
    (st : HttpState) : Int × HttpState :=
  let st := match st.defaultHandler with
    | some h =>
      if env.GetFunctionCount h.callback = 0 then
        { h.delete st with defaultHandler := none }
      else st
    | none => st
  match st.defaultHandler with
  | none =>
    (env.MHD_queue_response connection MHD_HTTP_NOT_FOUND .responseNotFound,
     st.emit (.MHD_queue_response connection MHD_HTTP_NOT_FOUND .responseNotFound))
  | some h =>
    let r := h.Execute env connection method url st
    if !r.1 then
      (env.MHD_queue_response connection MHD_HTTP_INTERNAL_SERVER_ERROR
          .responseInternalServerError,
       r.2.emit (.MHD_queue_response connection MHD_HTTP_INTERNAL_SERVER_ERROR
          .responseInternalServerError))
    else (MHD_YES, r.2)

/-- One inbound request: the answers it meets, its connection, URL and method. -/
structure Request where
  env : HttpEnv
  connection : Nat
  url : String
  method : String

/-- The requests of a list dispatched one after the other. -/
def serve : List Request → HttpState → HttpState
  | [], st => st
  | r :: rs, st => serve rs (DefaultConnectionHandler r.env r.connection r.url r.method st).2

/-- The forward an event is a call on, if any. -/
def eventForward : HttpEvent → Option Nat
  | .CreateForwardEx f => some f
  | .AddFunction f _ _ => some f
  | .ReleaseForward f => some f
  | .PushCell f _ => some f
  | .PushString f _ => some f
  | .Execute f => some f
  | .MHD_queue_response _ _ _ => none

/-- Whether an event is the invocation of a callback. -/
def isExecute : HttpEvent → Bool
  | .Execute _ => true
  | _ => false

/-! ## Concrete inputs -/

/-- The bytes of `GET /x HTTP/`. -/
def bytesGet : List Byte := [71, 69, 84, 32, 47, 120, 32, 72, 84, 84, 80, 47]

/-- A pending socket with descriptor `s`, just admitted. -/
def samplePending (s : Int) : PendingSocket :=
  { timeout := 0, socket := s, socketAddress := 0, socketAddressLength := 16, address := 0 }

/-- A world with the guard flag on, the failed-attempt delegate present, no
listener, and the given registry. -/
def sampleWorld (l : List PendingSocket) : World :=
  { shouldHandleProcessAccept := true, rconServer := true,
    HandleFailedRconAuthFunction := true, listener := none, acceptedSockets := [],
    listenSocket := 3, pendingSockets := l, events := [] }

/-- An environment in which `accept` finds nothing and every peek returns `ret`
with the bytes `l` in the buffer. -/
def sampleEnv (ret : Int) (l : List Byte) : Env :=
  { accept := fun _ => { socket := -1, socketAddress := 0, socketAddressLength := 16 },
    ioctlsocket := fun _ => 0,
    SetFromSockadr := fun a => a,
    recv := fun _ => { ret := ret, wouldBlock := false, buffer := bufferOf l } }

/-- The bytes `16 03 01 00 10 01 00 00 0C` followed by three more. -/
def bytesHello (x y z : Byte) : List Byte := [0x16, 3, 1, 0, 0x10, 1, 0, 0, 0x0C, x, y, z]

/-- The bytes `16 03 00 00 07 01 00 00 03 00 00 00`. -/
def bytesBoth : List Byte := [0x16, 3, 0, 0, 7, 1, 0, 0, 3, 0, 0, 0]

/-- A run in which call 0 accepts socket 7, later calls accept nothing, and
every peek would block. -/
def sampleEnvs : Nat → Env := fun k =>
  { accept := fun _ =>
      { socket := if k = 0 then 7 else -1, socketAddress := 0, socketAddressLength := 16 },
    ioctlsocket := fun _ => 0,
    SetFromSockadr := fun a => a,
    recv := fun _ => { ret := -1, wouldBlock := true, buffer := bufferOf [] } }

/-- An environment in which socket 8 was closed by its peer and every other
socket has delivered 5 bytes. -/
def sampleEnvMixed : Env :=
  { accept := fun _ => { socket := -1, socketAddress := 0, socketAddressLength := 16 },
    ioctlsocket := fun _ => 0,
    SetFromSockadr := fun a => a,
    recv := fun s => { ret := if s = 8 then 0 else 5, wouldBlock := false,
                       buffer := bufferOf [] } }

/-- A host in which the next forward created is forward 2, every forward has
one function, connection `c` carries handle `c`, and a callback returns
`result`. -/
def sampleHttpEnv (result : Int) : HttpEnv :=
  { CreateForwardEx := 2,
    GetFunctionCount := fun _ => 1,
    socket_context := fun c => c,
    Execute := fun _ _ _ _ => result,
    MHD_queue_response := fun _ _ _ => 1 }

/-- A state in which a handler on forward 1 is registered. -/
def sampleHttpState : HttpState :=
  { defaultHandler := some { callback := 1, name := "a", description := "first" },
    events := [] }

/-- The bytes `01 02 03 04 05 06 07 08 09 0A 0B 0C`. -/
def bytesJunk : List Byte := [1, 2, 3, 4, 5, 6, 7, 8, 9, 10, 11, 12]

/-- An environment in which `accept` returns socket 7 and every peek returns
the 12 bytes `01 02 .. 0C`. -/
def sampleEnvNewJunk : Env :=
  { accept := fun _ => { socket := 7, socketAddress := 0, socketAddressLength := 16 },
    ioctlsocket := fun _ => 0,
    SetFromSockadr := fun a => a,
    recv := fun _ => { ret := 12, wouldBlock := false, buffer := bufferOf bytesJunk } }

/-- The bytes `0A 00 00 00 01 00 00 00 03 00 00 00`. -/
def bytesAuth : List Byte := [10, 0, 0, 0, 1, 0, 0, 0, 3, 0, 0, 0]

/-! ## Lemmas on the scan -/

theorem scanStep_frame (env : Env) (w : World) (pre post : List PendingSocket)
    (p : PendingSocket) (h : w.pendingSockets = pre ++ p :: post) :
    scanStep env pre.length w =
      { w with
        pendingSockets := pre ++ (entry env w p).pendingSockets ++ post
        acceptedSockets := w.acceptedSockets ++ (entry env w p).acceptedSockets
        events := w.events ++ (entry env w p).events } := by
  have hget : w.pendingSockets[pre.length]? = some p := by
    rw [h, List.getElem?_append_right (le_refl _)]; simp
  have he : ∀ q, (pre ++ q :: post).eraseIdx pre.length = pre ++ post := by
    intro q; rw [List.eraseIdx_append_of_length_le (le_refl _)]; simp
  have hs : ∀ q, (pre ++ p :: post).set pre.length q = pre ++ q :: post := by
    intro q; rw [List.set_append_right _ _ (le_refl _)]; simp
  unfold entry scanStep
  simp only [hget, World.solo, List.getElem?_cons_zero]
  by_cases h0 : (env.recv p.socket).ret = 0
  · simp [h0, World.emit, World.Remove, h, he]
  by_cases h1 : ((env.recv p.socket).ret = -1 && !(env.recv p.socket).wouldBlock) = true
  · simp [h0, h1, World.emit, World.Remove, h, he]
  by_cases h2 : (env.recv p.socket).ret < 12
  · by_cases h3 : wrapInt (p.timeout + 1) > 1000
    · cases hr : w.rconServer <;> cases hf : w.HandleFailedRconAuthFunction <;>
        simp [h0, h1, h2, h3, hr, hf, World.emit, World.Remove, h, he, hs,
          CRConServer.HandleFailedRconAuth]
    · simp [h0, h1, h2, h3, World.emit, World.Remove, h, he, hs]
  · cases hA : (isHttp (env.recv p.socket).buffer || isHttps (env.recv p.socket).buffer)
    · cases hB : isRcon (env.recv p.socket).buffer
      · cases hr : w.rconServer <;> cases hf : w.HandleFailedRconAuthFunction <;>
          simp [h0, h1, h2, hA, hB, hr, hf, World.emit, World.Remove, h, he,
            CRConServer.HandleFailedRconAuth]
      · cases hl : w.listener <;>
          simp [h0, h1, h2, hA, hB, hl, World.emit, World.Remove, h, he,
            CSocketCreator.HandSocketToEngine]
    · simp [h0, h1, h2, hA, World.emit, World.Remove, h, he]

theorem scanLoop_frame (env : Env) (pre : List PendingSocket) :
    ∀ (post : List PendingSocket) (w : World), w.pendingSockets = pre ++ post →
    scanLoop env pre.length w =
      { w with
        pendingSockets := pre.flatMap (fun p => (entry env w p).pendingSockets) ++ post
        acceptedSockets :=
          w.acceptedSockets ++ pre.reverse.flatMap (fun p => (entry env w p).acceptedSockets)
        events := w.events ++ pre.reverse.flatMap (fun p => (entry env w p).events) } := by
  induction pre using List.reverseRecOn with
  | nil => intro post w h; simp [scanLoop, ← h]
  | append_singleton pre p ih =>
    intro post w h
    have h' : w.pendingSockets = pre ++ p :: post := by simp [h]
    rw [List.length_append, List.length_singleton, scanLoop, scanStep_frame env w pre post p h']
    rw [ih ((entry env w p).pendingSockets ++ post) _ (by simp)]
    simp [entry, World.solo]

theorem entry_eq (env : Env) (w : World) (p : PendingSocket) :
    entry env w p =
      { w with
        pendingSockets := verdictPending p (verdict (env.recv p.socket) p)
        acceptedSockets := verdictAccepted w p (verdict (env.recv p.socket) p)
        events := Event.recv p.socket :: verdictEvents w p (verdict (env.recv p.socket) p) } := by
  unfold entry scanStep verdict
  simp only [World.solo, List.getElem?_cons_zero]
  by_cases h0 : (env.recv p.socket).ret = 0
  · simp [h0, World.emit, World.Remove, verdictPending, verdictAccepted, verdictEvents]
  by_cases h1 : ((env.recv p.socket).ret = -1 && !(env.recv p.socket).wouldBlock) = true
  · simp [h0, h1, World.emit, World.Remove, verdictPending, verdictAccepted, verdictEvents]
  by_cases h2 : (env.recv p.socket).ret < 12
  · by_cases h3 : wrapInt (p.timeout + 1) > 1000
    · cases hr : w.rconServer <;> cases hf : w.HandleFailedRconAuthFunction <;>
        simp [h0, h1, h2, h3, hr, hf, World.emit, World.Remove, failedAttempt,
          CRConServer.HandleFailedRconAuth, verdictPending, verdictAccepted, verdictEvents]
    · simp [h0, h1, h2, h3, World.emit, World.Remove, verdictPending, verdictAccepted,
        verdictEvents]
  · cases hA : (isHttp (env.recv p.socket).buffer || isHttps (env.recv p.socket).buffer)
    · cases hB : isRcon (env.recv p.socket).buffer
      · cases hr : w.rconServer <;> cases hf : w.HandleFailedRconAuthFunction <;>
          simp [h0, h1, h2, hA, hB, hr, hf, World.emit, World.Remove, failedAttempt,
            CRConServer.HandleFailedRconAuth, verdictPending, verdictAccepted, verdictEvents]
      · cases hl : w.listener <;>
          simp [h0, h1, h2, hA, hB, hl, World.emit, World.Remove,
            CSocketCreator.HandSocketToEngine, verdictPending, verdictAccepted, verdictEvents]
    · simp [h0, h1, h2, hA, World.emit, World.Remove, verdictPending, verdictAccepted,
        verdictEvents]

theorem scan_eq (env : Env) (w : World) :
    scan env w =
      { w with
        pendingSockets :=
          w.pendingSockets.flatMap (fun p => verdictPending p (verdict (env.recv p.socket) p))
        acceptedSockets := w.acceptedSockets ++
          w.pendingSockets.reverse.flatMap
            (fun p => verdictAccepted w p (verdict (env.recv p.socket) p))
        events := w.events ++
          w.pendingSockets.reverse.flatMap
            (fun p => Event.recv p.socket :: verdictEvents w p (verdict (env.recv p.socket) p)) } := by
  unfold scan
  rw [scanLoop_frame env w.pendingSockets [] w (by simp)]
  simp [entry_eq]

theorem scan_pendingSockets (env : Env) (w : World) :
    (scan env w).pendingSockets =
      w.pendingSockets.flatMap (fun p => verdictPending p (verdict (env.recv p.socket) p)) := by
  rw [scan_eq]

theorem scan_handedToEngine (env : Env) (w : World) :
    handedToEngine w (scan env w) =
      w.pendingSockets.reverse.flatMap
        (fun p => verdictAccepted w p (verdict (env.recv p.socket) p)) := by
  rw [scan_eq]; simp [handedToEngine]

theorem scan_emitted (env : Env) (w : World) :
    emitted w (scan env w) =
      w.pendingSockets.reverse.flatMap
        (fun p => Event.recv p.socket :: verdictEvents w p (verdict (env.recv p.socket) p)) := by
  rw [scan_eq]; simp [emitted]

theorem mem_scan_emitted (env : Env) (w : World) (e : Event) :
    e ∈ emitted w (scan env w) ↔
      ∃ q ∈ w.pendingSockets,
        e = Event.recv q.socket ∨ e ∈ verdictEvents w q (verdict (env.recv q.socket) q) := by
  rw [scan_emitted]; simp [List.mem_flatMap]

theorem closesocket_mem_verdictEvents (w : World) (q : PendingSocket) (v : Verdict) (s : Int) :
    Event.closesocket s ∈ verdictEvents w q v ↔
      s = q.socket ∧ (v = .peerClosed ∨ v = .recvError ∨ v = .timedOut ∨ v = .unknown) := by
  cases v <;> cases hl : w.listener <;> simp [verdictEvents, failedAttempt, hl]

theorem add_connection_mem_verdictEvents (w : World) (q : PendingSocket) (v : Verdict)
    (s : Int) (a : sockaddr) (n : Nat) :
    Event.MHD_add_connection s a n ∈ verdictEvents w q v ↔
      v = .http ∧ s = q.socket ∧ a = q.socketAddress ∧ n = q.socketAddressLength := by
  cases v <;> cases hl : w.listener <;> simp [verdictEvents, failedAttempt, hl]

theorem onSocketAccepted_mem_verdictEvents (w : World) (q : PendingSocket) (v : Verdict)
    (s : Int) (a : netadr_t) :
    Event.OnSocketAccepted s a ∈ verdictEvents w q v ↔
      v = .rcon ∧ w.listener.isSome = true ∧ s = q.socket ∧ a = q.address := by
  cases v <;> cases hl : w.listener <;> simp [verdictEvents, failedAttempt, hl]

theorem failedAuth_mem_verdictEvents (w : World) (q : PendingSocket) (v : Verdict)
    (a : netadr_t) :
    Event.HandleFailedRconAuth a ∈ verdictEvents w q v ↔
      (v = .timedOut ∨ v = .unknown) ∧ w.rconServer = true ∧ a = q.address := by
  cases v <;> cases hl : w.listener <;> cases hr : w.rconServer <;>
    cases hf : w.HandleFailedRconAuthFunction <;>
    simp [verdictEvents, failedAttempt, hl, hr, hf]

theorem verdict_full (r : RecvResult) (p : PendingSocket) (h : r.ret = 12) :
    verdict r p =
      if isHttp r.buffer || isHttps r.buffer then .http
      else if isRcon r.buffer then .rcon else .unknown := by
  simp [verdict, h]

theorem isHttp_iff (b : Buffer) :
    isHttp b = true ↔ isAsciiLetter (b 0) ∧ isAsciiLetter (b 1) ∧ isAsciiLetter (b 2) := by
  simp [isHttp, isAsciiLetter, and_assoc]

theorem isHttps_byte0 (b : Buffer) (h : isHttps b = true) : (b 0).val = 0x16 := by
  simp [isHttps] at h; exact h.1.1.1.1

theorem mem_verdictAccepted (w : World) (q : PendingSocket) (v : Verdict) (a : AcceptedSocket)
    (h : a ∈ verdictAccepted w q v) : v = .rcon ∧ a.socket = q.socket ∧ a.address = q.address := by
  cases v <;> cases hl : w.listener <;> simp [verdictAccepted, hl] at h <;> simp [h]

theorem mem_verdictPending (q : PendingSocket) (v : Verdict) (q' : PendingSocket) :
    q' ∈ verdictPending q v ↔
      v = .pending ∧ q' = { q with timeout := wrapInt (q.timeout + 1) } := by
  cases v <;> simp [verdictPending]

theorem rcon_verdictAccepted (w : World) (q : PendingSocket) :
    ∃ a ∈ verdictAccepted w q .rcon, a.socket = q.socket ∧ a.address = q.address := by
  cases hl : w.listener <;> simp [verdictAccepted, hl]

/-- What the scan does with a socket whose peek returns 12 bytes: the branch is
decided by the buffer alone, the branch's calls are made, and the socket leaves
the registry. -/
theorem scan_full_read (env : Env) (w : World) (p : PendingSocket)
    (hp : p ∈ w.pendingSockets) (hret : (env.recv p.socket).ret = 12) (v : Verdict)
    (hv : (if isHttp (env.recv p.socket).buffer || isHttps (env.recv p.socket).buffer then
              Verdict.http
            else if isRcon (env.recv p.socket).buffer then Verdict.rcon
            else Verdict.unknown) = v) :
    (∀ e ∈ verdictEvents w p v, e ∈ emitted w (scan env w)) ∧
    (∀ q ∈ (scan env w).pendingSockets, q.socket ≠ p.socket) ∧
    (Event.closesocket p.socket ∈ emitted w (scan env w) ↔ v = .unknown) ∧
    ((∃ a n, Event.MHD_add_connection p.socket a n ∈ emitted w (scan env w)) ↔ v = .http) ∧
    ((∃ a, Event.OnSocketAccepted p.socket a ∈ emitted w (scan env w)) ↔
      v = .rcon ∧ w.listener.isSome = true) ∧
    ((∃ a ∈ handedToEngine w (scan env w), a.socket = p.socket) ↔ v = .rcon) := by
  have hq : ∀ q : PendingSocket, q.socket = p.socket →
      verdict (env.recv q.socket) q = v := by
    intro q hq
    rw [hq, verdict_full _ _ hret, hv]
  have hfull : v = .http ∨ v = .rcon ∨ v = .unknown := by
    rw [← hv]; split
    · exact Or.inl rfl
    · split
      · exact Or.inr (Or.inl rfl)
      · exact Or.inr (Or.inr rfl)
  refine ⟨?_, ?_, ?_, ?_, ?_, ?_⟩
  · intro e he
    rw [mem_scan_emitted]
    exact ⟨p, hp, Or.inr (by rw [hq p rfl]; exact he)⟩
  · intro q hmem hs
    rw [scan_pendingSockets, List.mem_flatMap] at hmem
    obtain ⟨q0, -, h0⟩ := hmem
    rw [mem_verdictPending] at h0
    have h1 : q0.socket = p.socket := by rw [← hs, h0.2]
    rw [hq q0 h1] at h0
    rcases hfull with h | h | h <;> rw [h] at h0 <;> simp at h0
  · rw [mem_scan_emitted]
    constructor
    · rintro ⟨q, -, h | h⟩
      · cases h
      · rw [closesocket_mem_verdictEvents] at h
        rw [hq q h.1.symm] at h
        rcases hfull with h' | h' | h'
        · rw [h'] at h; simp at h
        · rw [h'] at h; simp at h
        · exact h'
    · intro h
      refine ⟨p, hp, Or.inr ?_⟩
      rw [closesocket_mem_verdictEvents, hq p rfl]
      exact ⟨rfl, Or.inr (Or.inr (Or.inr h))⟩
  · constructor
    · rintro ⟨a, n, h⟩
      rw [mem_scan_emitted] at h
      obtain ⟨q, -, h | h⟩ := h
      · cases h
      · rw [add_connection_mem_verdictEvents] at h
        rw [← hq q h.2.1.symm]; exact h.1
    · intro h
      refine ⟨p.socketAddress, p.socketAddressLength, ?_⟩
      rw [mem_scan_emitted]
      refine ⟨p, hp, Or.inr ?_⟩
      rw [add_connection_mem_verdictEvents, hq p rfl]
      exact ⟨h, rfl, rfl, rfl⟩
  · constructor
    · rintro ⟨a, h⟩
      rw [mem_scan_emitted] at h
      obtain ⟨q, -, h | h⟩ := h
      · cases h
      · rw [onSocketAccepted_mem_verdictEvents] at h
        rw [← hq q h.2.2.1.symm]; exact ⟨h.1, h.2.1⟩
    · intro h
      refine ⟨p.address, ?_⟩
      rw [mem_scan_emitted]
      refine ⟨p, hp, Or.inr ?_⟩
      rw [onSocketAccepted_mem_verdictEvents, hq p rfl]
      exact ⟨h.1, h.2, rfl, rfl⟩
  · rw [scan_handedToEngine]
    constructor
    · rintro ⟨a, ha, hs⟩
      rw [List.mem_flatMap] at ha
      obtain ⟨q, -, h⟩ := ha
      have h' := mem_verdictAccepted _ _ _ _ h
      rw [← hq q (by rw [← h'.2.1, hs])]; exact h'.1
    · intro h
      obtain ⟨a, ha, hs, -⟩ := rcon_verdictAccepted w p
      refine ⟨a, ?_, hs⟩
      rw [List.mem_flatMap]
      exact ⟨p, by simpa using hp, by rw [hq p rfl, h]; exact ha⟩

theorem accept_eq (env : Env) (w : World) :
    CSocketCreator.ProcessAccept env w =
      { w with
        pendingSockets := w.pendingSockets ++ admitted env w
        events := w.events ++ acceptEvents env w } := by
  unfold CSocketCreator.ProcessAccept admitted admits acceptEvents newPending
  by_cases h1 : (env.accept w.listenSocket).socket = -1
  · simp [h1, World.emit]
  by_cases h2 : env.ioctlsocket (env.accept w.listenSocket).socket = -1
  · simp [h1, h2, World.emit]
  cases hl : w.listener with
  | none => simp [h1, h2, hl, World.emit]
  | some l =>
    cases hs : l.ShouldAcceptSocket (env.accept w.listenSocket).socket
        (env.SetFromSockadr (env.accept w.listenSocket).socketAddress) <;>
      simp [h1, h2, hl, hs, World.emit]

theorem verdictEvents_congr (w w' : World) (p : PendingSocket) (v : Verdict)
    (h1 : w'.rconServer = w.rconServer)
    (h2 : w'.HandleFailedRconAuthFunction = w.HandleFailedRconAuthFunction)
    (h3 : w'.listener = w.listener) :
    verdictEvents w' p v = verdictEvents w p v := by
  cases v <;> simp [verdictEvents, failedAttempt, h1, h2, h3]

theorem verdictAccepted_congr (w w' : World) (p : PendingSocket) (v : Verdict)
    (h3 : w'.listener = w.listener) :
    verdictAccepted w' p v = verdictAccepted w p v := by
  cases v <;> simp [verdictAccepted, h3]

theorem verdictEvents_with (w : World) (pend : List PendingSocket)
    (acc : List AcceptedSocket) (ev : List Event) :
    verdictEvents { w with pendingSockets := pend, acceptedSockets := acc, events := ev } =
      verdictEvents w := by
  funext p v; exact verdictEvents_congr _ _ _ _ rfl rfl rfl

theorem verdictAccepted_with (w : World) (pend : List PendingSocket)
    (acc : List AcceptedSocket) (ev : List Event) :
    verdictAccepted { w with pendingSockets := pend, acceptedSockets := acc, events := ev } =
      verdictAccepted w := by
  funext p v; exact verdictAccepted_congr _ _ _ _ rfl

/-- The whole `ProcessAccept` detour with the guard flag on: the accept, then
the scan over the registry including the entry just appended, then `MHD_run`. -/
theorem ProcessAccept_eq (original : World → World) (env : Env) (w : World)
    (hflag : w.shouldHandleProcessAccept = true) :
    ProcessAccept original env w =
      { w with
        pendingSockets :=
          (w.pendingSockets ++ admitted env w).flatMap
            (fun p => verdictPending p (verdict (env.recv p.socket) p))
        acceptedSockets := w.acceptedSockets ++
          (w.pendingSockets ++ admitted env w).reverse.flatMap
            (fun p => verdictAccepted w p (verdict (env.recv p.socket) p))
        events := w.events ++ (acceptEvents env w ++
          (w.pendingSockets ++ admitted env w).reverse.flatMap
            (fun p => Event.recv p.socket :: verdictEvents w p (verdict (env.recv p.socket) p)) ++
          [Event.MHD_run]) } := by
  unfold ProcessAccept
  rw [if_neg (by simp [hflag])]
  simp only []
  rw [accept_eq, scan_eq]
  simp only [verdictEvents_with, verdictAccepted_with]
  simp [World.emit]

theorem tick_emitted (original : World → World) (env : Env) (w : World)
    (hflag : w.shouldHandleProcessAccept = true) :
    emitted w (ProcessAccept original env w) =
      acceptEvents env w ++
        emitted (CSocketCreator.ProcessAccept env w)
          (scan env (CSocketCreator.ProcessAccept env w)) ++ [Event.MHD_run] := by
  rw [ProcessAccept_eq original env w hflag, scan_emitted, accept_eq]
  simp only [verdictEvents_with]
  simp [emitted]

theorem tick_pendingSockets (original : World → World) (env : Env) (w : World)
    (hflag : w.shouldHandleProcessAccept = true) :
    (ProcessAccept original env w).pendingSockets =
      (scan env (CSocketCreator.ProcessAccept env w)).pendingSockets := by
  rw [ProcessAccept_eq original env w hflag, scan_pendingSockets, accept_eq]

theorem tick_handedToEngine (original : World → World) (env : Env) (w : World)
    (hflag : w.shouldHandleProcessAccept = true) :
    handedToEngine w (ProcessAccept original env w) =
      handedToEngine (CSocketCreator.ProcessAccept env w)
        (scan env (CSocketCreator.ProcessAccept env w)) := by
  rw [ProcessAccept_eq original env w hflag, scan_handedToEngine, accept_eq]
  simp only [verdictAccepted_with]
  simp [handedToEngine]

theorem mem_acceptEvents (env : Env) (w : World) (e : Event) (h : e ∈ acceptEvents env w) :
    e = Event.accept w.listenSocket (env.accept w.listenSocket).socket ∨
    (∃ o, e = Event.setsockopt (env.accept w.listenSocket).socket o) ∨
    e = Event.ioctlsocket (env.accept w.listenSocket).socket ∨
    (∃ a, e = Event.ShouldAcceptSocket (env.accept w.listenSocket).socket a) ∨
    (e = Event.closesocket (env.accept w.listenSocket).socket ∧ admits env w = false) := by
  unfold acceptEvents at h
  unfold admits
  by_cases h1 : (env.accept w.listenSocket).socket = -1
  · simp [h1] at h; simp [h, h1]
  by_cases h2 : env.ioctlsocket (env.accept w.listenSocket).socket = -1
  · simp [h1, h2] at h
    rcases h with h | h | h | h | h <;> simp [h, h2]
  cases hl : w.listener with
  | none =>
    simp [h1, h2, hl] at h
    rcases h with h | h | h | h <;> simp [h]
  | some l =>
    cases hs : l.ShouldAcceptSocket (env.accept w.listenSocket).socket
        (env.SetFromSockadr (env.accept w.listenSocket).socketAddress)
    · simp [h1, h2, hl, hs] at h
      rcases h with h | h | h | h | h | h <;> simp [h, hs]
    · simp [h1, h2, hl, hs] at h
      rcases h with h | h | h | h | h <;> simp [h]

theorem wrapInt_succ (t : Int) (h1 : -2147483648 ≤ t) (h2 : t < 2147483647) :
    wrapInt (t + 1) = t + 1 := by
  unfold wrapInt; omega

theorem recvSocket_verdictEvents (w : World) (p : PendingSocket) (v : Verdict) :
    (verdictEvents w p v).filterMap recvSocket = [] := by
  cases v <;> cases hl : w.listener <;> cases hr : w.rconServer <;>
    cases hf : w.HandleFailedRconAuthFunction <;>
    simp [verdictEvents, failedAttempt, hl, hr, hf, recvSocket]

theorem recvSocket_flatMap (w : World) (f : PendingSocket → Verdict) (l : List PendingSocket) :
    (l.flatMap (fun p => Event.recv p.socket :: verdictEvents w p (f p))).filterMap recvSocket =
      l.map (fun p => p.socket) := by
  induction l with
  | nil => simp
  | cons p l ih =>
    simp only [List.flatMap_cons, List.filterMap_append, List.map_cons, ih]
    simp [List.filterMap_cons, recvSocket, recvSocket_verdictEvents]

theorem verdict_eq_pending (r : RecvResult) (p : PendingSocket) :
    verdict r p = .pending ↔
      r.ret ≠ 0 ∧ ¬(r.ret = -1 ∧ r.wouldBlock = false) ∧ r.ret < 12 ∧
        ¬(wrapInt (p.timeout + 1) > 1000) := by
  unfold verdict
  split_ifs with c0 c1 c2 c3 c4 c5 <;> simp_all

theorem verdictPending_of_ne (p : PendingSocket) (v : Verdict) (h : v ≠ .pending) :
    verdictPending p v = [] := by
  cases v <;> simp_all [verdictPending]

theorem verdictPending_eq (r : RecvResult) (p : PendingSocket)
    (h1 : -2147483648 ≤ p.timeout) (h2 : p.timeout < 2147483647) :
    verdictPending p (verdict r p) = if staysPending r p then [bumped p] else [] := by
  have hw := wrapInt_succ _ h1 h2
  by_cases hv : verdict r p = .pending
  · have hc := (verdict_eq_pending r p).1 hv
    rw [hw] at hc
    have hs : staysPending r p = true := by
      simp only [staysPending, Bool.and_eq_true, bne_iff_ne, Bool.not_eq_true',
        Bool.and_eq_false_iff, beq_eq_false_iff_ne, decide_eq_true_eq, decide_eq_false_iff_not,
        Bool.not_eq_false', ne_eq]
      refine ⟨⟨⟨hc.1, ?_⟩, hc.2.2.1⟩, hc.2.2.2⟩
      by_cases hm : r.ret = -1
      · right
        cases hb : r.wouldBlock
        · exact absurd ⟨hm, hb⟩ hc.2.1
        · rfl
      · exact Or.inl hm
    rw [hv, hs]
    simp [verdictPending, bumped, hw]
  · have hs : staysPending r p = false := by
      rw [← Bool.not_eq_true]
      intro hs
      apply hv
      rw [verdict_eq_pending, hw]
      simp only [staysPending, Bool.and_eq_true, bne_iff_ne, Bool.not_eq_true',
        Bool.and_eq_false_iff, beq_eq_false_iff_ne, decide_eq_true_eq, decide_eq_false_iff_not,
        Bool.not_eq_false', ne_eq] at hs
      refine ⟨hs.1.1.1, ?_, hs.1.2, hs.2⟩
      rintro ⟨hm, hb⟩
      rcases hs.1.1.2 with h | h
      · exact h hm
      · rw [hb] at h; cases h
    rw [verdictPending_of_ne _ _ hv, hs]
    simp

theorem flatMap_verdictPending (env : Env) (l : List PendingSocket)
    (hr : ∀ p ∈ l, -2147483648 ≤ p.timeout ∧ p.timeout < 2147483647) :
    l.flatMap (fun p => verdictPending p (verdict (env.recv p.socket) p)) =
      (l.filter (fun p => staysPending (env.recv p.socket) p)).map bumped := by
  induction l with
  | nil => simp
  | cons p l ih =>
    have hp := hr p (List.mem_cons_self _ _)
    rw [List.flatMap_cons, ih (fun q hq => hr q (List.mem_cons_of_mem _ hq)),
      verdictPending_eq _ _ hp.1 hp.2, List.filter_cons]
    cases staysPending (env.recv p.socket) p <;> simp

theorem filter_verdictPending (p : PendingSocket) (v : Verdict) (s : Int) :
    (verdictPending p v).filter (fun q => decide (q.socket = s)) =
      if p.socket = s then verdictPending p v else [] := by
  cases v <;> by_cases h : p.socket = s <;> simp [verdictPending, h]

theorem filter_flatMap_verdictPending (f : PendingSocket → Verdict) (s : Int)
    (l : List PendingSocket) :
    (l.flatMap (fun p => verdictPending p (f p))).filter (fun q => decide (q.socket = s)) =
      (l.filter (fun q => decide (q.socket = s))).flatMap (fun p => verdictPending p (f p)) := by
  induction l with
  | nil => simp
  | cons p l ih =>
    rw [List.flatMap_cons, List.filter_append, ih, filter_verdictPending, List.filter_cons]
    by_cases h : p.socket = s <;> simp [h]

theorem verdict_short (r : RecvResult) (p : PendingSocket) (h : shortRead r) :
    verdict r p = if wrapInt (p.timeout + 1) > 1000 then .timedOut else .pending := by
  unfold verdict
  rcases h with ⟨h1, h2⟩ | ⟨h1, h2⟩
  · have c0 : r.ret ≠ 0 := by omega
    have c1 : r.ret ≠ -1 := by omega
    have c2 : r.ret < 12 := by omega
    simp [c0, c1, c2]
  · simp [h1, h2]

theorem mem_tick_emitted (original : World → World) (env : Env) (w : World)
    (hflag : w.shouldHandleProcessAccept = true) (e : Event) :
    e ∈ emitted w (ProcessAccept original env w) ↔
      e ∈ acceptEvents env w ∨
      (∃ q ∈ w.pendingSockets ++ admitted env w,
        e = Event.recv q.socket ∨ e ∈ verdictEvents w q (verdict (env.recv q.socket) q)) ∨
      e = Event.MHD_run := by
  have he : emitted w (ProcessAccept original env w) =
      acceptEvents env w ++
        (w.pendingSockets ++ admitted env w).reverse.flatMap
          (fun p => Event.recv p.socket :: verdictEvents w p (verdict (env.recv p.socket) p)) ++
        [Event.MHD_run] := by
    rw [ProcessAccept_eq original env w hflag]; simp [emitted]
  rw [he, List.mem_append, List.mem_append, List.mem_flatMap, List.mem_singleton]
  constructor
  · rintro ((h | ⟨q, hq, h⟩) | h)
    · exact Or.inl h
    · exact Or.inr (Or.inl ⟨q, List.mem_reverse.1 hq, List.mem_cons.1 h⟩)
    · exact Or.inr (Or.inr h)
  · rintro (h | ⟨q, hq, h⟩ | h)
    · exact Or.inl (Or.inl h)
    · exact Or.inl (Or.inr ⟨q, List.mem_reverse.2 hq, List.mem_cons.2 h⟩)
    · exact Or.inr h

theorem tick_filter_pending (original : World → World) (env : Env) (w : World)
    (hflag : w.shouldHandleProcessAccept = true) (s : Int) :
    (ProcessAccept original env w).pendingSockets.filter (fun q => decide (q.socket = s)) =
      ((w.pendingSockets ++ admitted env w).filter (fun q => decide (q.socket = s))).flatMap
        (fun p => verdictPending p (verdict (env.recv p.socket) p)) := by
  rw [ProcessAccept_eq original env w hflag]
  exact filter_flatMap_verdictPending _ s _

/-- One call of the detour on a socket `s` that has a single registry entry `p`
(possibly admitted in this very call) and answers the peek with a short read. -/
theorem tick_short (original : World → World) (env : Env) (w : World) (s : Int)
    (p : PendingSocket) (hflag : w.shouldHandleProcessAccept = true)
    (hL : (w.pendingSockets ++ admitted env w).filter (fun q => decide (q.socket = s)) = [p])
    (hacc : Event.closesocket s ∉ acceptEvents env w)
    (hshort : shortRead (env.recv s))
    (h1 : 0 ≤ p.timeout) (h2 : p.timeout ≤ 1000) :
    (p.timeout < 1000 →
      (ProcessAccept original env w).pendingSockets.filter (fun q => decide (q.socket = s)) =
        [{ p with timeout := p.timeout + 1 }] ∧
      Event.closesocket s ∉ emitted w (ProcessAccept original env w)) ∧
    (p.timeout = 1000 →
      (ProcessAccept original env w).pendingSockets.filter (fun q => decide (q.socket = s)) = [] ∧
      Event.closesocket s ∈ emitted w (ProcessAccept original env w) ∧
      (w.rconServer = true →
        Event.HandleFailedRconAuth p.address ∈ emitted w (ProcessAccept original env w))) := by
  have hpf : p ∈ (w.pendingSockets ++ admitted env w).filter (fun q => decide (q.socket = s)) := by
    rw [hL]; exact List.mem_singleton_self _
  have hpm : p ∈ w.pendingSockets ++ admitted env w := (List.mem_filter.1 hpf).1
  have hps : p.socket = s := of_decide_eq_true (List.mem_filter.1 hpf).2
  have huniq : ∀ q ∈ w.pendingSockets ++ admitted env w, q.socket = s → q = p := by
    intro q hq hqs
    have : q ∈ (w.pendingSockets ++ admitted env w).filter (fun q => decide (q.socket = s)) :=
      List.mem_filter.2 ⟨hq, decide_eq_true hqs⟩
    rw [hL] at this
    exact List.mem_singleton.1 this
  have hw : wrapInt (p.timeout + 1) = p.timeout + 1 := wrapInt_succ _ (by omega) (by omega)
  have hv : verdict (env.recv p.socket) p =
      if p.timeout + 1 > 1000 then .timedOut else .pending := by
    rw [hps, verdict_short _ _ hshort, hw]
  rw [tick_filter_pending original env w hflag, hL]
  constructor
  · intro hlt
    have hv' : verdict (env.recv p.socket) p = .pending := by
      rw [hv, if_neg (by omega)]
    refine ⟨by simp [hv', verdictPending, hw], ?_⟩
    rw [mem_tick_emitted original env w hflag]
    rintro (h | ⟨q, hq, h | h⟩ | h)
    · exact hacc h
    · cases h
    · rw [closesocket_mem_verdictEvents] at h
      rw [huniq q hq h.1.symm, hv'] at h
      simp at h
    · cases h
  · intro heq
    have hv' : verdict (env.recv p.socket) p = .timedOut := by
      rw [hv, if_pos (by omega)]
    refine ⟨by simp [hv', verdictPending], ?_, ?_⟩
    · rw [mem_tick_emitted original env w hflag]
      refine Or.inr (Or.inl ⟨p, hpm, Or.inr ?_⟩)
      rw [closesocket_mem_verdictEvents, hv']
      exact ⟨hps.symm, Or.inr (Or.inr (Or.inl rfl))⟩
    · intro hr
      rw [mem_tick_emitted original env w hflag]
      refine Or.inr (Or.inl ⟨p, hpm, Or.inr ?_⟩)
      rw [failedAuth_mem_verdictEvents, hv']
      exact ⟨Or.inl rfl, hr, rfl⟩

theorem admitted_congr (env : Env) (w w' : World) (h1 : w'.listener = w.listener)
    (h2 : w'.listenSocket = w.listenSocket) : admitted env w' = admitted env w := by
  simp [admitted, admits, newPending, h1, h2]

theorem acceptEvents_congr (env : Env) (w w' : World) (h1 : w'.listener = w.listener)
    (h2 : w'.listenSocket = w.listenSocket) : acceptEvents env w' = acceptEvents env w := by
  simp [acceptEvents, h1, h2]

theorem run_succ (original : World → World) (envs : Nat → Env) (n : Nat) (w : World) :
    run original envs (n + 1) w = ProcessAccept original (envs n) (run original envs n w) :=
  rfl

theorem run_config (original : World → World) (envs : Nat → Env) (w : World)
    (hflag : w.shouldHandleProcessAccept = true) (n : Nat) :
    (run original envs n w).shouldHandleProcessAccept = true ∧
    (run original envs n w).rconServer = w.rconServer ∧
    (run original envs n w).listener = w.listener ∧
    (run original envs n w).listenSocket = w.listenSocket := by
  induction n with
  | zero => exact ⟨hflag, rfl, rfl, rfl⟩
  | succ n ih =>
    obtain ⟨i1, i2, i3, i4⟩ := ih
    simp only [run]
    rw [ProcessAccept_eq original (envs n) _ i1]
    exact ⟨i1, i2, i3, i4⟩

/-- Before call `k ≤ 1000` of a run in which call 0 admits socket `s`, no later
call accepts `s` again and every peek on `s` is short: once the accept of call
`k` is done, `s` has exactly one registry entry, with counter `k`, and the
accept has not closed `s`. -/
theorem run_short_entry (original : World → World) (envs : Nat → Env) (w : World) (s : Int)
    (hflag : w.shouldHandleProcessAccept = true)
    (hadm : admits (envs 0) w = true)
    (hs : ((envs 0).accept w.listenSocket).socket = s)
    (hfresh : ∀ q ∈ w.pendingSockets, q.socket ≠ s)
    (hno : ∀ k, 1 ≤ k → k ≤ 1000 → ((envs k).accept w.listenSocket).socket ≠ s)
    (hshort : ∀ k, k ≤ 1000 → shortRead ((envs k).recv s)) (k : Nat) (hk : k ≤ 1000) :
    ((run original envs k w).pendingSockets ++
        admitted (envs k) (run original envs k w)).filter (fun q => decide (q.socket = s)) =
      [{ newPending (envs 0) w with timeout := (k : Int) }] ∧
    Event.closesocket s ∉ acceptEvents (envs k) (run original envs k w) := by
  induction k with
  | zero =>
    constructor
    · have h0 : w.pendingSockets.filter (fun q => decide (q.socket = s)) = [] := by
        rw [List.filter_eq_nil_iff]
        intro q hq; simpa using hfresh q hq
      simp only [run, List.filter_append, h0, List.nil_append, admitted, hadm, if_true]
      simp [newPending, hs]
    · intro h
      have := mem_acceptEvents _ _ _ h
      simp [run, hadm] at this
  | succ k ih =>
    obtain ⟨iL, iacc⟩ := ih (by omega)
    obtain ⟨c1, -, c3, c4⟩ := run_config original envs w hflag (k + 1)
    have hne := hno (k + 1) (by omega) hk
    have hstep := (tick_short original (envs k) (run original envs k w) s _
      (run_config original envs w hflag k).1 iL iacc (hshort k (by omega))
      (by simp) (by simp; omega)).1 (by simp; omega)
    constructor
    · rw [List.filter_append]
      have ha : (admitted (envs (k + 1)) (run original envs (k + 1) w)).filter
          (fun q => decide (q.socket = s)) = [] := by
        rw [List.filter_eq_nil_iff]
        intro q hq
        rw [admitted_congr _ w _ c3 c4] at hq
        unfold admitted at hq
        split at hq
        · rw [List.mem_singleton] at hq
          subst hq
          simpa [newPending] using hne
        · cases hq
      rw [ha, List.append_nil]
      simp only [run]
      rw [hstep.1]
      simp
    · intro h
      rw [acceptEvents_congr _ w _ c3 c4] at h
      rcases mem_acceptEvents _ _ _ h with h' | ⟨o, h'⟩ | h' | ⟨a, h'⟩ | ⟨h', -⟩ <;>
        simp at h'
      exact hne h'.symm

/-- The counters in the registry stay between 0 and 1000 from one call of the
detour to the next, so `timeout++` never overflows. -/
theorem tick_timeout_bounds (original : World → World) (env : Env) (w : World)
    (hflag : w.shouldHandleProcessAccept = true)
    (hb : ∀ p ∈ w.pendingSockets, 0 ≤ p.timeout ∧ p.timeout ≤ 1000) :
    ∀ p ∈ (ProcessAccept original env w).pendingSockets, 0 ≤ p.timeout ∧ p.timeout ≤ 1000 := by
  intro p hp
  rw [ProcessAccept_eq original env w hflag] at hp
  simp only [List.mem_flatMap] at hp
  obtain ⟨q, hq, hpq⟩ := hp
  rw [mem_verdictPending] at hpq
  obtain ⟨hv, rfl⟩ := hpq
  have hqb : 0 ≤ q.timeout ∧ q.timeout ≤ 1000 := by
    rcases List.mem_append.1 hq with h | h
    · exact hb q h
    · unfold admitted at h
      split at h
      · rw [List.mem_singleton] at h
        subst h
        simp [newPending]
      · cases h
  have hw := wrapInt_succ q.timeout (by omega) (by omega)
  have hc := ((verdict_eq_pending _ _).1 hv).2.2.2
  rw [hw] at hc
  simp only [hw]
  omega

theorem filter_flatMap_unique {α β : Type} (P : β → Bool) (f : α → List β) (p : α) :
    ∀ (l : List α), p ∈ l → l.Nodup → (∀ q ∈ l, q ≠ p → (f q).filter P = []) →
      (l.flatMap f).filter P = (f p).filter P := by
  intro l
  induction l with
  | nil => intro hp; cases hp
  | cons a l ih =>
    intro hp hn h0
    rw [List.flatMap_cons, List.filter_append]
    rw [List.nodup_cons] at hn
    by_cases ha : a = p
    · subst ha
      have hrest : (l.flatMap f).filter P = [] := by
        rw [List.filter_eq_nil_iff]
        intro x hx
        rw [List.mem_flatMap] at hx
        obtain ⟨q, hq, hxq⟩ := hx
        have hne : q ≠ a := fun h => hn.1 (h ▸ hq)
        have := h0 q (List.mem_cons_of_mem _ hq) hne
        rw [List.filter_eq_nil_iff] at this
        exact this x hxq
      rw [hrest, List.append_nil]
    · have hpl : p ∈ l := by
        rcases List.mem_cons.1 hp with h | h
        · exact absurd h.symm ha
        · exact h
      rw [h0 a (List.mem_cons_self _ _) ha, List.nil_append]
      exact ih hpl hn.2 (fun q hq hne => h0 q (List.mem_cons_of_mem _ hq) hne)

theorem socket_injective_of_nodup (l : List PendingSocket)
    (hd : (l.map (fun p => p.socket)).Nodup) (p q : PendingSocket)
    (hp : p ∈ l) (hq : q ∈ l) (h : q.socket = p.socket) : q = p :=
  List.inj_on_of_nodup_map hd hq hp h

theorem filter_isClose_other (w : World) (q : PendingSocket) (v : Verdict) (s : Int)
    (h : q.socket ≠ s) :
    (Event.recv q.socket :: verdictEvents w q v).filter (isClose s) = [] := by
  cases v <;> cases hl : w.listener <;> cases hr : w.rconServer <;>
    cases hf : w.HandleFailedRconAuthFunction <;>
    simp [verdictEvents, failedAttempt, hl, hr, hf, isClose, h]

theorem filter_isClose_self (w : World) (p : PendingSocket) (v : Verdict) :
    ((Event.recv p.socket :: verdictEvents w p v).filter (isClose p.socket)).length =
      if v = .peerClosed ∨ v = .recvError ∨ v = .timedOut ∨ v = .unknown then 1 else 0 := by
  cases v <;> cases hl : w.listener <;> cases hr : w.rconServer <;>
    cases hf : w.HandleFailedRconAuthFunction <;>
    simp [verdictEvents, failedAttempt, hl, hr, hf, isClose]

theorem filter_isAddConnection_other (w : World) (q : PendingSocket) (v : Verdict) (s : Int)
    (h : q.socket ≠ s) :
    (Event.recv q.socket :: verdictEvents w q v).filter (isAddConnection s) = [] := by
  cases v <;> cases hl : w.listener <;> cases hr : w.rconServer <;>
    cases hf : w.HandleFailedRconAuthFunction <;>
    simp [verdictEvents, failedAttempt, hl, hr, hf, isAddConnection, h]

theorem filter_isAddConnection_self (w : World) (p : PendingSocket) (v : Verdict) :
    ((Event.recv p.socket :: verdictEvents w p v).filter (isAddConnection p.socket)).length =
      if v = .http then 1 else 0 := by
  cases v <;> cases hl : w.listener <;> cases hr : w.rconServer <;>
    cases hf : w.HandleFailedRconAuthFunction <;>
    simp [verdictEvents, failedAttempt, hl, hr, hf, isAddConnection]

theorem filter_verdictAccepted_other (w : World) (q : PendingSocket) (v : Verdict) (s : Int)
    (h : q.socket ≠ s) :
    (verdictAccepted w q v).filter (fun a => decide (a.socket = s)) = [] := by
  cases v <;> cases hl : w.listener <;> simp [verdictAccepted, hl, h]

theorem filter_verdictAccepted_self (w : World) (p : PendingSocket) (v : Verdict) :
    ((verdictAccepted w p v).filter (fun a => decide (a.socket = p.socket))).length =
      if v = .rcon then 1 else 0 := by
  cases v <;> cases hl : w.listener <;> simp [verdictAccepted, hl]

/-- With pairwise distinct sockets, what the scan does to the socket of entry
`p` is what the iteration on `p` does: the closes, the hand-offs and the
registry entries for that socket all come from that one iteration. -/
theorem scan_counts (env : Env) (w : World) (p : PendingSocket)
    (hd : (w.pendingSockets.map (fun p => p.socket)).Nodup) (hp : p ∈ w.pendingSockets) :
    closeCount p.socket (emitted w (scan env w)) =
      (if verdict (env.recv p.socket) p = .peerClosed ∨
          verdict (env.recv p.socket) p = .recvError ∨
          verdict (env.recv p.socket) p = .timedOut ∨
          verdict (env.recv p.socket) p = .unknown then 1 else 0) ∧
    httpCount p.socket (emitted w (scan env w)) =
      (if verdict (env.recv p.socket) p = .http then 1 else 0) ∧
    engineCount p.socket (handedToEngine w (scan env w)) =
      (if verdict (env.recv p.socket) p = .rcon then 1 else 0) ∧
    (scan env w).pendingSockets.filter (fun q => decide (q.socket = p.socket)) =
      verdictPending p (verdict (env.recv p.socket) p) := by
  have hn : w.pendingSockets.Nodup := List.Nodup.of_map _ hd
  have hnr : w.pendingSockets.reverse.Nodup := List.nodup_reverse.2 hn
  have hpr : p ∈ w.pendingSockets.reverse := List.mem_reverse.2 hp
  have hne : ∀ q ∈ w.pendingSockets.reverse, q ≠ p → q.socket ≠ p.socket := by
    intro q hq hqp hs
    exact hqp (socket_injective_of_nodup _ hd p q hp (List.mem_reverse.1 hq) hs)
  refine ⟨?_, ?_, ?_, ?_⟩
  · unfold closeCount
    rw [scan_emitted, filter_flatMap_unique _ _ p _ hpr hnr
      (fun q hq hqp => filter_isClose_other w q _ _ (hne q hq hqp))]
    exact filter_isClose_self w p _
  · unfold httpCount
    rw [scan_emitted, filter_flatMap_unique _ _ p _ hpr hnr
      (fun q hq hqp => filter_isAddConnection_other w q _ _ (hne q hq hqp))]
    exact filter_isAddConnection_self w p _
  · unfold engineCount
    rw [scan_handedToEngine, filter_flatMap_unique _ _ p _ hpr hnr
      (fun q hq hqp => filter_verdictAccepted_other w q _ _ (hne q hq hqp))]
    exact filter_verdictAccepted_self w p _
  · rw [scan_pendingSockets, filter_flatMap_unique _ _ p _ hp hn
      (fun q hq hqp => by
        rw [filter_verdictPending, if_neg]
        intro hs
        exact hqp (socket_injective_of_nodup _ hd p q hp hq hs))]
    rw [filter_verdictPending, if_pos rfl]

theorem failedAuth_mem_scan_emitted (env : Env) (w : World) (a : netadr_t) :
    Event.HandleFailedRconAuth a ∈ emitted w (scan env w) ↔
      w.rconServer = true ∧ ∃ q ∈ w.pendingSockets, q.address = a ∧
        (verdict (env.recv q.socket) q = .timedOut ∨ verdict (env.recv q.socket) q = .unknown) := by
  rw [mem_scan_emitted]
  constructor
  · rintro ⟨q, hq, h | h⟩
    · cases h
    · rw [failedAuth_mem_verdictEvents] at h
      exact ⟨h.2.1, q, hq, h.2.2.symm, h.1⟩
  · rintro ⟨hr, q, hq, ha, hv⟩
    refine ⟨q, hq, Or.inr ?_⟩
    rw [failedAuth_mem_verdictEvents]
    exact ⟨hv, hr, ha.symm⟩

/-- The calls of the single iteration at index `i`, where entry `p` sits. -/
theorem scanStep_emitted (env : Env) (w : World) (i : Nat) (p : PendingSocket)
    (h : w.pendingSockets[i]? = some p) :
    emitted w (scanStep env i w) =
      Event.recv p.socket :: verdictEvents w p (verdict (env.recv p.socket) p) := by
  obtain ⟨hi, hget⟩ := List.getElem?_eq_some_iff.1 h
  have hsplit : w.pendingSockets =
      w.pendingSockets.take i ++ p :: w.pendingSockets.drop (i + 1) := by
    rw [← hget, ← List.drop_eq_getElem_cons hi, List.take_append_drop]
  have hlen : (w.pendingSockets.take i).length = i := by
    rw [List.length_take]; omega
  have hf := scanStep_frame env w _ _ p hsplit
  rw [hlen] at hf
  rw [hf, entry_eq]
  simp [emitted]

theorem dispatch_absent (env : HttpEnv) (connection : Nat) (url method : String)
    (st : HttpState) (h0 : st.defaultHandler = none) :
    DefaultConnectionHandler env connection url method st =
      (env.MHD_queue_response connection MHD_HTTP_NOT_FOUND .responseNotFound,
       { st with events := st.events ++
          [.MHD_queue_response connection MHD_HTTP_NOT_FOUND .responseNotFound] }) := by
  simp [DefaultConnectionHandler, h0, HttpState.emit]

theorem dispatch_stale (env : HttpEnv) (connection : Nat) (url method : String)
    (st : HttpState) (h : PluginRequestHandler) (hh : st.defaultHandler = some h)
    (hc : env.GetFunctionCount h.callback = 0) :
    DefaultConnectionHandler env connection url method st =
      (env.MHD_queue_response connection MHD_HTTP_NOT_FOUND .responseNotFound,
       { defaultHandler := none,
         events := st.events ++
          [.ReleaseForward h.callback,
           .MHD_queue_response connection MHD_HTTP_NOT_FOUND .responseNotFound] }) := by
  simp [DefaultConnectionHandler, hh, hc, HttpState.emit, PluginRequestHandler.delete]

theorem dispatch_badHandle (env : HttpEnv) (connection : Nat) (url method : String)
    (st : HttpState) (h : PluginRequestHandler) (hh : st.defaultHandler = some h)
    (hc : env.GetFunctionCount h.callback ≠ 0)
    (hb : env.socket_context connection = BAD_HANDLE) :
    DefaultConnectionHandler env connection url method st =
      (env.MHD_queue_response connection MHD_HTTP_INTERNAL_SERVER_ERROR
          .responseInternalServerError,
       { st with events := st.events ++
          [.MHD_queue_response connection MHD_HTTP_INTERNAL_SERVER_ERROR
            .responseInternalServerError] }) := by
  simp [DefaultConnectionHandler, hh, hc, hb, HttpState.emit, PluginRequestHandler.Execute]

theorem dispatch_unhandled (env : HttpEnv) (connection : Nat) (url method : String)
    (st : HttpState) (h : PluginRequestHandler) (hh : st.defaultHandler = some h)
    (hc : env.GetFunctionCount h.callback ≠ 0)
    (hb : env.socket_context connection ≠ BAD_HANDLE)
    (hr : env.Execute h.callback (env.socket_context connection) method url = 0) :
    DefaultConnectionHandler env connection url method st =
      (env.MHD_queue_response connection MHD_HTTP_INTERNAL_SERVER_ERROR
          .responseInternalServerError,
       { st with events := st.events ++
          [.PushCell h.callback (env.socket_context connection),
           .PushString h.callback method, .PushString h.callback url,
           .Execute h.callback,
           .MHD_queue_response connection MHD_HTTP_INTERNAL_SERVER_ERROR
            .responseInternalServerError] }) := by
  simp [DefaultConnectionHandler, hh, hc, hb, hr, HttpState.emit,
    PluginRequestHandler.Execute]

theorem dispatch_handled (env : HttpEnv) (connection : Nat) (url method : String)
    (st : HttpState) (h : PluginRequestHandler) (hh : st.defaultHandler = some h)
    (hc : env.GetFunctionCount h.callback ≠ 0)
    (hb : env.socket_context connection ≠ BAD_HANDLE)
    (hr : env.Execute h.callback (env.socket_context connection) method url ≠ 0) :
    DefaultConnectionHandler env connection url method st =
      (MHD_YES,
       { st with events := st.events ++
          [.PushCell h.callback (env.socket_context connection),
           .PushString h.callback method, .PushString h.callback url,
           .Execute h.callback] }) := by
  simp [DefaultConnectionHandler, hh, hc, hb, hr, HttpState.emit,
    PluginRequestHandler.Execute]

theorem httpEmitted_of_append (st st' : HttpState) (new : List HttpEvent)
    (h : st'.events = st.events ++ new) : httpEmitted st st' = new := by
  unfold httpEmitted; rw [h]; exact List.drop_left _ _

/-- One dispatch only makes calls on the forward of the registered handler, and
afterwards the registered handler, if any, is still that one. -/
theorem dispatch_forward (env : HttpEnv) (connection : Nat) (url method : String)
    (st : HttpState) (f : Nat) (hinv : ∀ h, st.defaultHandler = some h → h.callback = f) :
    ∃ new, (DefaultConnectionHandler env connection url method st).2.events = st.events ++ new ∧
      (∀ e ∈ new, eventForward e = none ∨ eventForward e = some f) ∧
      (∀ h, (DefaultConnectionHandler env connection url method st).2.defaultHandler = some h →
        h.callback = f) := by
  cases hh : st.defaultHandler with
  | none =>
    rw [dispatch_absent _ _ _ _ _ hh]
    exact ⟨_, rfl, by simp [eventForward], by simp [hh]⟩
  | some h =>
    have hf := hinv h hh
    by_cases hc : env.GetFunctionCount h.callback = 0
    · rw [dispatch_stale _ _ _ _ _ h hh hc]
      exact ⟨_, rfl, by simp [eventForward, hf], by simp⟩
    by_cases hb : env.socket_context connection = BAD_HANDLE
    · rw [dispatch_badHandle _ _ _ _ _ h hh hc hb]
      exact ⟨_, rfl, by simp [eventForward], by simpa [hh] using hf⟩
    by_cases hr : env.Execute h.callback (env.socket_context connection) method url = 0
    · rw [dispatch_unhandled _ _ _ _ _ h hh hc hb hr]
      exact ⟨_, rfl, by simp [eventForward, hf], by simpa [hh] using hf⟩
    · rw [dispatch_handled _ _ _ _ _ h hh hc hb hr]
      exact ⟨_, rfl, by simp [eventForward, hf], by simpa [hh] using hf⟩

theorem serve_forward (reqs : List Request) :
    ∀ (st : HttpState) (f : Nat), (∀ h, st.defaultHandler = some h → h.callback = f) →
    ∃ new, (serve reqs st).events = st.events ++ new ∧
      (∀ e ∈ new, eventForward e = none ∨ eventForward e = some f) := by
  induction reqs with
  | nil => intro st f _; exact ⟨[], by simp [serve], by simp⟩
  | cons r rs ih =>
    intro st f hinv
    obtain ⟨n1, h1, h2, h3⟩ := dispatch_forward r.env r.connection r.url r.method st f hinv
    obtain ⟨n2, k1, k2⟩ := ih _ f h3
    refine ⟨n1 ++ n2, ?_, ?_⟩
    · simp only [serve]; rw [k1, h1, List.append_assoc]
    · intro e he
      rcases List.mem_append.1 he with he | he
      · exact h2 e he
      · exact k2 e he

/-! ## The claims -/

/-- C1. HTTP detection in the scan: when the peek on a pending socket returns 12
bytes whose bytes 0, 1 and 2 are ASCII letters, the scan hands that socket to the
HTTP server (`MHD_add_connection` with its address and address length), does not
close it, does not hand it to the control-protocol server, and removes it from
the registry, whatever bytes 3..11 are.  And when byte 0 is not 0x16, the socket
is handed to the HTTP server only if bytes 0..2 are all ASCII letters. -/
theorem http_detection (env : Env) (w : World) (p : PendingSocket)
    (hp : p ∈ w.pendingSockets) (hret : (env.recv p.socket).ret = 12) :
    (isAsciiLetter ((env.recv p.socket).buffer 0) ∧
      isAsciiLetter ((env.recv p.socket).buffer 1) ∧
      isAsciiLetter ((env.recv p.socket).buffer 2) →
        Event.MHD_add_connection p.socket p.socketAddress p.socketAddressLength
            ∈ emitted w (scan env w) ∧
        Event.closesocket p.socket ∉ emitted w (scan env w) ∧
        (∀ a, Event.OnSocketAccepted p.socket a ∉ emitted w (scan env w)) ∧
        (∀ a ∈ handedToEngine w (scan env w), a.socket ≠ p.socket) ∧
        (∀ q ∈ (scan env w).pendingSockets, q.socket ≠ p.socket)) ∧
    (((env.recv p.socket).buffer 0).val ≠ 0x16 →
      (∃ addr len, Event.MHD_add_connection p.socket addr len ∈ emitted w (scan env w)) →
        isAsciiLetter ((env.recv p.socket).buffer 0) ∧
        isAsciiLetter ((env.recv p.socket).buffer 1) ∧
        isAsciiLetter ((env.recv p.socket).buffer 2)) := by
  constructor
  · intro hl
    have hh : isHttp (env.recv p.socket).buffer = true := (isHttp_iff _).2 hl
    obtain ⟨h1, h2, h3, -, h5, h6⟩ :=
      scan_full_read env w p hp hret .http (by simp [hh])
    refine ⟨h1 _ (by simp [verdictEvents]), ?_, ?_, ?_, h2⟩
    · intro h; exact absurd (h3.1 h) (by simp)
    · intro a h; exact absurd (h5.1 ⟨a, h⟩).1 (by simp)
    · intro a ha hs; exact absurd (h6.1 ⟨a, ha, hs⟩) (by simp)
  · intro h16 hadd
    obtain ⟨-, -, -, h4, -, -⟩ := scan_full_read env w p hp hret _ rfl
    have hv := h4.1 hadd
    rw [← isHttp_iff]
    by_contra hn
    have hs : isHttps (env.recv p.socket).buffer = true := by
      by_contra hs
      simp only [Bool.not_eq_true] at hn hs
      rw [hn, hs] at hv
      simp at hv
      split at hv <;> simp at hv
    exact h16 (isHttps_byte0 _ hs)

/-- C1, at a concrete input: socket 7 is pending, its peek returns the 12 bytes
of `GET /x HTTP/`, and the scan hands it to the HTTP server. -/
theorem http_detection_witness :
    samplePending 7 ∈ (sampleWorld [samplePending 7]).pendingSockets ∧
    ((sampleEnv 12 bytesGet).recv (samplePending 7).socket).ret = 12 ∧
    Event.MHD_add_connection 7 0 16 ∈
      emitted (sampleWorld [samplePending 7])
        (scan (sampleEnv 12 bytesGet) (sampleWorld [samplePending 7])) :=
  ⟨by simp [sampleWorld], rfl,
   ((http_detection (sampleEnv 12 bytesGet) (sampleWorld [samplePending 7]) (samplePending 7)
      (by simp [sampleWorld]) rfl).1 (by decide)).1⟩

/-- C2. HTTPS detection in the scan: for every 12-byte buffer, `isHttps` holds
exactly when byte 0 is 0x16, byte 1 is 0x03, byte 5 is 0x01, byte 6 is 0x00 and
the big-endian record length `b[3]*256 + b[4]` equals the big-endian handshake
length `b[7]*256 + b[8]` plus 4, the sum taken over the integers without
wrap-around; a pending socket whose peek returns such a buffer is handed to the
HTTP server, not closed, not handed to the control-protocol server, and leaves
the registry.  The bytes `16 03 01 00 10 01 00 00 0C` followed by any three
bytes match. -/
theorem https_detection (env : Env) (w : World) (p : PendingSocket)
    (hp : p ∈ w.pendingSockets) (hret : (env.recv p.socket).ret = 12) :
    (isHttps (env.recv p.socket).buffer = true ↔
      ((env.recv p.socket).buffer 0).val = 0x16 ∧ ((env.recv p.socket).buffer 1).val = 0x03 ∧
      ((env.recv p.socket).buffer 5).val = 0x01 ∧ ((env.recv p.socket).buffer 6).val = 0x00 ∧
      ((env.recv p.socket).buffer 3).val * 256 + ((env.recv p.socket).buffer 4).val =
        ((env.recv p.socket).buffer 7).val * 256 + ((env.recv p.socket).buffer 8).val + 4) ∧
    (isHttps (env.recv p.socket).buffer = true →
      Event.MHD_add_connection p.socket p.socketAddress p.socketAddressLength
          ∈ emitted w (scan env w) ∧
      Event.closesocket p.socket ∉ emitted w (scan env w) ∧
      (∀ a, Event.OnSocketAccepted p.socket a ∉ emitted w (scan env w)) ∧
      (∀ a ∈ handedToEngine w (scan env w), a.socket ≠ p.socket) ∧
      (∀ q ∈ (scan env w).pendingSockets, q.socket ≠ p.socket)) ∧
    (∀ x y z : Byte, isHttps (bufferOf (bytesHello x y z)) = true) := by
  refine ⟨?_, ?_, ?_⟩
  · simp [isHttps, and_assoc]
  · intro hh
    obtain ⟨h1, h2, h3, -, h5, h6⟩ :=
      scan_full_read env w p hp hret .http (by simp [hh])
    refine ⟨h1 _ (by simp [verdictEvents]), ?_, ?_, ?_, h2⟩
    · intro h; exact absurd (h3.1 h) (by simp)
    · intro a h; exact absurd (h5.1 ⟨a, h⟩).1 (by simp)
    · intro a ha hs; exact absurd (h6.1 ⟨a, ha, hs⟩) (by simp)
  · intro x y z
    have h0 : (bufferOf (bytesHello x y z) 0).val = 0x16 := rfl
    have h1 : (bufferOf (bytesHello x y z) 1).val = 3 := rfl
    have h3 : (bufferOf (bytesHello x y z) 3).val = 0 := rfl
    have h4 : (bufferOf (bytesHello x y z) 4).val = 0x10 := rfl
    have h5 : (bufferOf (bytesHello x y z) 5).val = 1 := rfl
    have h6 : (bufferOf (bytesHello x y z) 6).val = 0 := rfl
    have h7 : (bufferOf (bytesHello x y z) 7).val = 0 := rfl
    have h8 : (bufferOf (bytesHello x y z) 8).val = 0x0C := rfl
    simp [isHttps, h0, h1, h3, h4, h5, h6, h7, h8]

/-- C2, at a concrete input: socket 7 is pending, its peek returns
`16 03 01 00 10 01 00 00 0C 00 00 00`, the buffer is classified HTTPS and the
socket goes to the HTTP server. -/
theorem https_detection_witness :
    samplePending 7 ∈ (sampleWorld [samplePending 7]).pendingSockets ∧
    ((sampleEnv 12 (bytesHello 0 0 0)).recv (samplePending 7).socket).ret = 12 ∧
    isHttps ((sampleEnv 12 (bytesHello 0 0 0)).recv (samplePending 7).socket).buffer = true ∧
    Event.MHD_add_connection 7 0 16 ∈
      emitted (sampleWorld [samplePending 7])
        (scan (sampleEnv 12 (bytesHello 0 0 0)) (sampleWorld [samplePending 7])) :=
  ⟨by simp [sampleWorld], rfl, by decide,
   ((https_detection (sampleEnv 12 (bytesHello 0 0 0)) (sampleWorld [samplePending 7])
      (samplePending 7) (by simp [sampleWorld]) rfl).2.1 (by decide)).1⟩

/-- C3 as stated fails: the buffer `16 03 00 00 07 01 00 00 03 00 00 00` has
bytes 2 and 3 zero and bytes 8..11 equal to `03 00 00 00`, yet the scan hands
the socket to the HTTP server and nothing to the control-protocol server. -/
theorem controlProtocol_detection_counterexample :
    ((bufferOf bytesBoth 2).val = 0 ∧ (bufferOf bytesBoth 3).val = 0 ∧
      (bufferOf bytesBoth 8).val = 3 ∧ (bufferOf bytesBoth 9).val = 0 ∧
      (bufferOf bytesBoth 10).val = 0 ∧ (bufferOf bytesBoth 11).val = 0) ∧
    emitted (sampleWorld [samplePending 7])
        (scan (sampleEnv 12 bytesBoth) (sampleWorld [samplePending 7])) =
      [Event.recv 7, Event.MHD_add_connection 7 0 16] ∧
    handedToEngine (sampleWorld [samplePending 7])
        (scan (sampleEnv 12 bytesBoth) (sampleWorld [samplePending 7])) = [] := by
  decide

/-- C3, amended. ControlProtocol detection in the scan: a pending socket whose
peek returns 12 bytes with bytes 2 and 3 zero and bytes 8..11 equal to
`03 00 00 00` is handed to the control-protocol server (appended to
`acceptedSockets` with its address, the listener notified when there is one),
not closed and not handed to the HTTP server, regardless of bytes 0, 1, 4..7,
unless those bytes are `16 03 .. .. 07 01 00 00`; in that one case the buffer
is also a TLS ClientHello pattern and the socket is handed to the HTTP server
instead. -/
theorem controlProtocol_detection_amended (env : Env) (w : World) (p : PendingSocket)
    (hp : p ∈ w.pendingSockets) (hret : (env.recv p.socket).ret = 12)
    (hpat : ((env.recv p.socket).buffer 2).val = 0 ∧ ((env.recv p.socket).buffer 3).val = 0 ∧
      ((env.recv p.socket).buffer 8).val = 3 ∧ ((env.recv p.socket).buffer 9).val = 0 ∧
      ((env.recv p.socket).buffer 10).val = 0 ∧ ((env.recv p.socket).buffer 11).val = 0) :
    (¬(((env.recv p.socket).buffer 0).val = 0x16 ∧ ((env.recv p.socket).buffer 1).val = 3 ∧
        ((env.recv p.socket).buffer 4).val = 7 ∧ ((env.recv p.socket).buffer 5).val = 1 ∧
        ((env.recv p.socket).buffer 6).val = 0 ∧ ((env.recv p.socket).buffer 7).val = 0) →
      (∃ a ∈ handedToEngine w (scan env w), a.socket = p.socket ∧ a.address = p.address) ∧
      (w.listener.isSome = true →
        Event.OnSocketAccepted p.socket p.address ∈ emitted w (scan env w)) ∧
      Event.closesocket p.socket ∉ emitted w (scan env w) ∧
      (∀ a n, Event.MHD_add_connection p.socket a n ∉ emitted w (scan env w)) ∧
      (∀ q ∈ (scan env w).pendingSockets, q.socket ≠ p.socket)) ∧
    ((((env.recv p.socket).buffer 0).val = 0x16 ∧ ((env.recv p.socket).buffer 1).val = 3 ∧
        ((env.recv p.socket).buffer 4).val = 7 ∧ ((env.recv p.socket).buffer 5).val = 1 ∧
        ((env.recv p.socket).buffer 6).val = 0 ∧ ((env.recv p.socket).buffer 7).val = 0) →
      Event.MHD_add_connection p.socket p.socketAddress p.socketAddressLength
          ∈ emitted w (scan env w) ∧
      (∀ a ∈ handedToEngine w (scan env w), a.socket ≠ p.socket)) := by
  obtain ⟨b2, b3, b8, b9, b10, b11⟩ := hpat
  have hrc : isRcon (env.recv p.socket).buffer = true := by
    simp [isRcon, b2, b3, b8, b9, b10, b11]
  have hnh : isHttp (env.recv p.socket).buffer = false := by
    simp [isHttp, b2]
  have hb4 := ((env.recv p.socket).buffer 4).isLt
  have hs : isHttps (env.recv p.socket).buffer = true ↔
      (((env.recv p.socket).buffer 0).val = 0x16 ∧ ((env.recv p.socket).buffer 1).val = 3 ∧
        ((env.recv p.socket).buffer 4).val = 7 ∧ ((env.recv p.socket).buffer 5).val = 1 ∧
        ((env.recv p.socket).buffer 6).val = 0 ∧ ((env.recv p.socket).buffer 7).val = 0) := by
    simp only [isHttps, b3, b8, Bool.and_eq_true, beq_iff_eq]
    constructor
    · rintro ⟨⟨⟨⟨h0, h1⟩, h5⟩, h6⟩, hlen⟩
      refine ⟨h0, h1, ?_, h5, h6, ?_⟩ <;> omega
    · rintro ⟨h0, h1, h4, h5, h6, h7⟩
      refine ⟨⟨⟨⟨h0, h1⟩, h5⟩, h6⟩, ?_⟩
      omega
  constructor
  · intro hn
    have hns : isHttps (env.recv p.socket).buffer = false := by
      rw [← Bool.not_eq_true]; exact fun h => hn (hs.1 h)
    obtain ⟨h1, h2, h3, h4, -, -⟩ :=
      scan_full_read env w p hp hret .rcon (by simp [hnh, hns, hrc])
    refine ⟨?_, ?_, ?_, ?_, h2⟩
    · obtain ⟨a, ha, hsa⟩ := rcon_verdictAccepted w p
      refine ⟨a, ?_, hsa⟩
      rw [scan_handedToEngine, List.mem_flatMap]
      refine ⟨p, by simpa using hp, ?_⟩
      rw [verdict_full _ _ hret]
      simpa [hnh, hns, hrc] using ha
    · intro hl
      apply h1
      rw [onSocketAccepted_mem_verdictEvents]
      exact ⟨rfl, hl, rfl, rfl⟩
    · intro h; exact absurd (h3.1 h) (by simp)
    · intro a n h; exact absurd (h4.1 ⟨a, n, h⟩) (by simp)
  · intro hy
    have hys : isHttps (env.recv p.socket).buffer = true := hs.2 hy
    obtain ⟨h1, -, -, -, -, h6⟩ :=
      scan_full_read env w p hp hret .http (by simp [hys])
    refine ⟨h1 _ (by simp [verdictEvents]), ?_⟩
    intro a ha hsa
    exact absurd (h6.1 ⟨a, ha, hsa⟩) (by simp)

/-- C3 amended, at a concrete input: socket 7 is pending, its peek returns
`0A 00 00 00 01 00 00 00 03 00 00 00`, and the scan hands it to the
control-protocol server. -/
theorem controlProtocol_detection_amended_witness :
    samplePending 7 ∈ (sampleWorld [samplePending 7]).pendingSockets ∧
    ((sampleEnv 12 bytesAuth).recv (samplePending 7).socket).ret = 12 ∧
    (∃ a ∈ handedToEngine (sampleWorld [samplePending 7])
        (scan (sampleEnv 12 bytesAuth) (sampleWorld [samplePending 7])),
      a.socket = (samplePending 7).socket ∧ a.address = (samplePending 7).address) :=
  ⟨by simp [sampleWorld], rfl,
   ((controlProtocol_detection_amended (sampleEnv 12 bytesAuth)
      (sampleWorld [samplePending 7]) (samplePending 7) (by simp [sampleWorld]) rfl
      (by decide)).1 (by decide)).1⟩

/-- C4 as stated fails: the buffer `16 03 00 00 07 01 00 00 03 00 00 00`
satisfies both `isHttps` and `isRcon`. -/
theorem patterns_exclusive_counterexample :
    isHttps (bufferOf bytesBoth) = true ∧ isRcon (bufferOf bytesBoth) = true := by
  decide

/-- C4, amended. For every 12-byte buffer, `isHttp` excludes `isHttps` and
excludes `isRcon`; `isHttps` and `isRcon` hold together exactly for the buffer
`16 03 00 00 07 01 00 00 03 00 00 00`, so at most one of the three patterns
holds for every other buffer. -/
theorem patterns_exclusive_amended (b : Buffer) :
    ¬(isHttp b = true ∧ isHttps b = true) ∧
    ¬(isHttp b = true ∧ isRcon b = true) ∧
    ((isHttps b = true ∧ isRcon b = true) ↔ b = bufferOf bytesBoth) := by
  refine ⟨?_, ?_, ?_⟩
  · rintro ⟨h1, h2⟩
    have := isHttps_byte0 b h2
    simp [isHttp, this] at h1
  · rintro ⟨h1, h2⟩
    simp only [isRcon, Bool.and_eq_true, beq_iff_eq] at h2
    simp [isHttp, h2.1.1] at h1
  · constructor
    · rintro ⟨h1, h2⟩
      simp only [isHttps, isRcon, Bool.and_eq_true, beq_iff_eq] at h1 h2
      obtain ⟨⟨⟨⟨h0, h1⟩, h5⟩, h6⟩, hlen⟩ := h1
      obtain ⟨⟨b2, b3⟩, ⟨⟨b8, b9⟩, b10⟩, b11⟩ := h2
      have hb4 := (b 4).isLt
      have h4 : (b 4).val = 7 := by omega
      have h7 : (b 7).val = 0 := by omega
      funext i
      apply Fin.ext
      fin_cases i
      · exact h0
      · exact h1
      · exact b2
      · exact b3
      · exact h4
      · exact h5
      · exact h6
      · exact h7
      · exact b8
      · exact b9
      · exact b10
      · exact b11
    · intro h
      subst h
      decide

/-- C5. Unknown fallback: when the guard flag is on and the peek on a pending
socket (one already in the registry, or the one this call's accept has just
appended) returns 12 bytes matching none of the three patterns, the very call
of the `ProcessAccept` detour that peeks them calls `HandleFailedRconAuth` with
the socket's address (when `rconServer` is set), closes the socket, and leaves
no entry for it in `pendingSockets`; the socket is handed neither to the HTTP
server nor to the control-protocol server. -/
theorem unknown_fallback (original : World → World) (env : Env) (w : World)
    (p : PendingSocket) (hflag : w.shouldHandleProcessAccept = true)
    (hp : p ∈ (CSocketCreator.ProcessAccept env w).pendingSockets)
    (hret : (env.recv p.socket).ret = 12)
    (h1 : isHttp (env.recv p.socket).buffer = false)
    (h2 : isHttps (env.recv p.socket).buffer = false)
    (h3 : isRcon (env.recv p.socket).buffer = false) :
    (w.rconServer = true →
      Event.HandleFailedRconAuth p.address ∈ emitted w (ProcessAccept original env w)) ∧
    Event.closesocket p.socket ∈ emitted w (ProcessAccept original env w) ∧
    (∀ q ∈ (ProcessAccept original env w).pendingSockets, q.socket ≠ p.socket) ∧
    (∀ a n, Event.MHD_add_connection p.socket a n ∉ emitted w (ProcessAccept original env w)) ∧
    (∀ a, Event.OnSocketAccepted p.socket a ∉ emitted w (ProcessAccept original env w)) ∧
    (∀ a ∈ handedToEngine w (ProcessAccept original env w), a.socket ≠ p.socket) := by
  have hr1 : (CSocketCreator.ProcessAccept env w).rconServer = w.rconServer := by
    rw [accept_eq]
  obtain ⟨e1, e2, e3, e4, e5, e6⟩ :=
    scan_full_read env (CSocketCreator.ProcessAccept env w) p hp hret .unknown
      (by simp [h1, h2, h3])
  rw [tick_emitted original env w hflag, tick_pendingSockets original env w hflag,
    tick_handedToEngine original env w hflag]
  refine ⟨?_, ?_, e2, ?_, ?_, ?_⟩
  · intro hr
    apply List.mem_append_left
    apply List.mem_append_right
    apply e1
    rw [failedAuth_mem_verdictEvents]
    exact ⟨Or.inr rfl, by rw [hr1, hr], rfl⟩
  · apply List.mem_append_left
    apply List.mem_append_right
    exact e3.2 rfl
  · intro a n h
    rw [List.mem_append, List.mem_append] at h
    rcases h with (h | h) | h
    · have := mem_acceptEvents env w _ h
      simp at this
    · exact absurd (e4.1 ⟨a, n, h⟩) (by simp)
    · simp at h
  · intro a h
    rw [List.mem_append, List.mem_append] at h
    rcases h with (h | h) | h
    · have := mem_acceptEvents env w _ h
      simp at this
    · exact absurd (e5.1 ⟨a, h⟩).1 (by simp)
    · simp at h
  · intro a ha hs
    exact absurd (e6.1 ⟨a, ha, hs⟩) (by simp)

/-- C5, at a concrete input: socket 8 is pending and the call's accept returns
socket 7; every peek returns the bytes `01 02 .. 0C`; the same call closes
socket 7, the one it has just admitted. -/
theorem unknown_fallback_witness :
    (sampleWorld [samplePending 8]).shouldHandleProcessAccept = true ∧
    samplePending 7 ∈
      (CSocketCreator.ProcessAccept sampleEnvNewJunk (sampleWorld [samplePending 8])).pendingSockets ∧
    (sampleEnvNewJunk.recv (samplePending 7).socket).ret = 12 ∧
    isHttp (sampleEnvNewJunk.recv (samplePending 7).socket).buffer = false ∧
    isHttps (sampleEnvNewJunk.recv (samplePending 7).socket).buffer = false ∧
    isRcon (sampleEnvNewJunk.recv (samplePending 7).socket).buffer = false ∧
    Event.closesocket 7 ∈
      emitted (sampleWorld [samplePending 8])
        (ProcessAccept id sampleEnvNewJunk (sampleWorld [samplePending 8])) :=
  ⟨rfl, by decide, rfl, by decide, by decide, by decide,
   (unknown_fallback id sampleEnvNewJunk (sampleWorld [samplePending 8])
      (samplePending 7) rfl (by decide) rfl (by decide) (by decide) (by decide)).2.1⟩

/-- C6. Timeout eviction.  Call 0 of the detour admits a connection on socket
`s` (counter 0); no later call accepts `s` again while it is open, and in every
call the peek on `s` is a short read (1..11 bytes, or -1 with would-block).
Then after each of the first 1000 scans the registry holds exactly one entry for
`s`, the admitted one with its counter equal to the number of scans so far (so
each scan adds exactly one and none resets it), and that scan does not close
`s`; the 1001st scan removes the entry, closes `s` and, when `rconServer` is
set, calls `HandleFailedRconAuth` with the address of the entry. -/
theorem timeout_eviction (original : World → World) (envs : Nat → Env) (w : World) (s : Int)
    (hflag : w.shouldHandleProcessAccept = true)
    (hadm : admits (envs 0) w = true)
    (hs : ((envs 0).accept w.listenSocket).socket = s)
    (hfresh : ∀ q ∈ w.pendingSockets, q.socket ≠ s)
    (hno : ∀ k, 1 ≤ k → k ≤ 1000 → ((envs k).accept w.listenSocket).socket ≠ s)
    (hshort : ∀ k, k ≤ 1000 → shortRead ((envs k).recv s)) :
    (∀ k, k < 1000 →
      (run original envs (k + 1) w).pendingSockets.filter (fun q => decide (q.socket = s)) =
        [{ newPending (envs 0) w with timeout := ((k + 1 : Nat) : Int) }] ∧
      Event.closesocket s ∉
        emitted (run original envs k w) (run original envs (k + 1) w)) ∧
    (run original envs 1001 w).pendingSockets.filter (fun q => decide (q.socket = s)) = [] ∧
    Event.closesocket s ∈
      emitted (run original envs 1000 w) (run original envs 1001 w) ∧
    (w.rconServer = true →
      Event.HandleFailedRconAuth (newPending (envs 0) w).address ∈
        emitted (run original envs 1000 w) (run original envs 1001 w)) := by
  refine ⟨?_, ?_⟩
  · intro k hk
    obtain ⟨iL, iacc⟩ :=
      run_short_entry original envs w s hflag hadm hs hfresh hno hshort k (by omega)
    have hstep := (tick_short original (envs k) (run original envs k w) s _
      (run_config original envs w hflag k).1 iL iacc (hshort k (by omega))
      (by simp) (by simp; omega)).1 (by simp; omega)
    simp only [run]
    refine ⟨?_, hstep.2⟩
    rw [hstep.1]
    simp
  · obtain ⟨iL, iacc⟩ :=
      run_short_entry original envs w s hflag hadm hs hfresh hno hshort 1000 (le_refl _)
    obtain ⟨c1, c2, -, -⟩ := run_config original envs w hflag 1000
    have hstep := (tick_short original (envs 1000) (run original envs 1000 w) s _
      c1 iL iacc (hshort 1000 (le_refl _)) (by simp) (by simp)).2 (by simp)
    rw [run_succ original envs 1000 w]
    refine ⟨hstep.1, hstep.2.1, ?_⟩
    intro hr
    exact hstep.2.2 (by rw [c2, hr])

/-- C6, at a concrete input: the registry starts empty, call 0 accepts socket 7,
every peek would block; the 1001st call closes socket 7. -/
theorem timeout_eviction_witness :
    Event.closesocket 7 ∈
      emitted (run id sampleEnvs 1000 (sampleWorld [])) (run id sampleEnvs 1001 (sampleWorld [])) :=
  (timeout_eviction id sampleEnvs (sampleWorld []) 7 rfl (by decide) rfl
    (by simp [sampleWorld])
    (by intro k h1 _; have : k ≠ 0 := by omega
        simp [sampleEnvs, this])
    (by intro k _; exact Or.inr ⟨rfl, rfl⟩)).2.2.1

/-- C7. Registry removal safety: for every registry whose sockets are pairwise
distinct (counters being `int` values below `INT_MAX`) and every peek oracle,
the reverse-index scan with order-preserving `Remove(i)` peeks each entry
exactly once, from the last entry to the first; the registry it leaves is
exactly the sub-list of the entries whose outcome was a short read without
timeout, in their original order, each with socket and address fields unchanged
and its counter incremented by one; and the sockets are still pairwise distinct. -/
theorem registry_removal_safety (env : Env) (w : World)
    (hd : (w.pendingSockets.map (fun p => p.socket)).Nodup)
    (hr : ∀ p ∈ w.pendingSockets, -2147483648 ≤ p.timeout ∧ p.timeout < 2147483647) :
    (emitted w (scan env w)).filterMap recvSocket =
      (w.pendingSockets.map (fun p => p.socket)).reverse ∧
    (scan env w).pendingSockets =
      (w.pendingSockets.filter (fun p => staysPending (env.recv p.socket) p)).map bumped ∧
    ((scan env w).pendingSockets.map (fun p => p.socket)).Nodup := by
  have h2 : (scan env w).pendingSockets =
      (w.pendingSockets.filter (fun p => staysPending (env.recv p.socket) p)).map bumped := by
    rw [scan_pendingSockets, flatMap_verdictPending env _ hr]
  refine ⟨?_, h2, ?_⟩
  · rw [scan_emitted, recvSocket_flatMap w (fun p => verdict (env.recv p.socket) p),
      List.map_reverse]
  · rw [h2, List.map_map]
    have : ((fun p : PendingSocket => p.socket) ∘ bumped) = (fun p => p.socket) := by
      funext p; rfl
    rw [this]
    exact hd.sublist (List.Sublist.map _ (List.filter_sublist _))

/-- C7, at a concrete input: sockets 7, 8, 9 are pending, 8 was closed by its
peer and the others delivered 5 bytes; the scan leaves 7 and 9, in that order,
with counter 1. -/
theorem registry_removal_safety_witness :
    (scan sampleEnvMixed (sampleWorld [samplePending 7, samplePending 8, samplePending 9])).pendingSockets =
      [bumped (samplePending 7), bumped (samplePending 9)] :=
  (registry_removal_safety sampleEnvMixed
    (sampleWorld [samplePending 7, samplePending 8, samplePending 9])
    (by decide) (by decide)).2.1.trans (by decide)

/-- C9. Request dispatch in `DefaultConnectionHandler`, for every request.
(1) With no handler registered, the fixed 404 response is queued and nothing
else happens; with a registered handler whose forward has function count 0, the
handler is destroyed (its forward released), `defaultHandler` is cleared, and
the fixed 404 response is queued; in both cases no callback is invoked.
(2) With a live handler, when the connection's slot holds `BAD_HANDLE` the only
call is the queueing of the fixed 500 response; when the slot is valid and the
callback returns 0, the callback is invoked once and the fixed 500 response is
queued.  (3) When the callback returns non-zero, it is invoked once, no response
is queued by the dispatcher, and the result is `MHD_YES`.  In every case the
callback is invoked at most once. -/
theorem request_dispatch (env : HttpEnv) (connection : Nat) (url method : String)
    (st : HttpState) :
    (st.defaultHandler = none →
      DefaultConnectionHandler env connection url method st =
        (env.MHD_queue_response connection MHD_HTTP_NOT_FOUND .responseNotFound,
         { st with events := st.events ++
            [.MHD_queue_response connection MHD_HTTP_NOT_FOUND .responseNotFound] })) ∧
    (∀ h, st.defaultHandler = some h → env.GetFunctionCount h.callback = 0 →
      DefaultConnectionHandler env connection url method st =
        (env.MHD_queue_response connection MHD_HTTP_NOT_FOUND .responseNotFound,
         { defaultHandler := none,
           events := st.events ++
            [.ReleaseForward h.callback,
             .MHD_queue_response connection MHD_HTTP_NOT_FOUND .responseNotFound] })) ∧
    (∀ h, st.defaultHandler = some h → env.GetFunctionCount h.callback ≠ 0 →
      env.socket_context connection = BAD_HANDLE →
      DefaultConnectionHandler env connection url method st =
        (env.MHD_queue_response connection MHD_HTTP_INTERNAL_SERVER_ERROR
            .responseInternalServerError,
         { st with events := st.events ++
            [.MHD_queue_response connection MHD_HTTP_INTERNAL_SERVER_ERROR
              .responseInternalServerError] })) ∧
    (∀ h, st.defaultHandler = some h → env.GetFunctionCount h.callback ≠ 0 →
      env.socket_context connection ≠ BAD_HANDLE →
      env.Execute h.callback (env.socket_context connection) method url = 0 →
      DefaultConnectionHandler env connection url method st =
        (env.MHD_queue_response connection MHD_HTTP_INTERNAL_SERVER_ERROR
            .responseInternalServerError,
         { st with events := st.events ++
            [.PushCell h.callback (env.socket_context connection),
             .PushString h.callback method, .PushString h.callback url,
             .Execute h.callback,
             .MHD_queue_response connection MHD_HTTP_INTERNAL_SERVER_ERROR
              .responseInternalServerError] })) ∧
    (∀ h, st.defaultHandler = some h → env.GetFunctionCount h.callback ≠ 0 →
      env.socket_context connection ≠ BAD_HANDLE →
      env.Execute h.callback (env.socket_context connection) method url ≠ 0 →
      DefaultConnectionHandler env connection url method st =
        (MHD_YES,
         { st with events := st.events ++
            [.PushCell h.callback (env.socket_context connection),
             .PushString h.callback method, .PushString h.callback url,
             .Execute h.callback] })) ∧
    ((httpEmitted st (DefaultConnectionHandler env connection url method st).2).filter
        isExecute).length ≤ 1 := by
  have c1 := dispatch_absent env connection url method st
  have c2 := dispatch_stale env connection url method st
  have c3 := dispatch_badHandle env connection url method st
  have c4 := dispatch_unhandled env connection url method st
  have c5 := dispatch_handled env connection url method st
  refine ⟨c1, c2, c3, c4, c5, ?_⟩
  cases hh : st.defaultHandler with
  | none => rw [c1 hh]; simp [httpEmitted, isExecute]
  | some h =>
    by_cases hc : env.GetFunctionCount h.callback = 0
    · rw [c2 h hh hc]; simp [httpEmitted, isExecute]
    by_cases hb : env.socket_context connection = BAD_HANDLE
    · rw [c3 h hh hc hb]; simp [httpEmitted, isExecute]
    by_cases hr : env.Execute h.callback (env.socket_context connection) method url = 0
    · rw [c4 h hh hc hb hr]; simp [httpEmitted, isExecute]
    · rw [c5 h hh hc hb hr]; simp [httpEmitted, isExecute]

/-- C9, at a concrete input: a handler on forward 1 is registered and live,
connection 5 carries handle 5, the callback returns 0; the callback is invoked
once and the fixed 500 response is queued. -/
theorem request_dispatch_witness :
    DefaultConnectionHandler (sampleHttpEnv 0) 5 "/" "GET" sampleHttpState =
      (1, { sampleHttpState with events :=
          [.PushCell 1 5, .PushString 1 "GET", .PushString 1 "/", .Execute 1,
           .MHD_queue_response 5 500 .responseInternalServerError] }) :=
  (request_dispatch (sampleHttpEnv 0) 5 "/" "GET" sampleHttpState).2.2.2.1
    _ rfl (by decide) (by decide) rfl

/-- C10. Handler registration in `Web_RegisterRequestHandler`.  With an empty
id the call returns 0 and changes nothing: the registered handler stays and no
forward is released.  With a non-empty id the call returns 1; the calls it makes
are the release of the previous handler's forward when there was one (exactly
one release), then the creation of a new forward and the addition of the
plugin function to it; the new handler, holding that forward, the name and the
description, is the registered one.  Every later request makes calls on the new
handler's forward only: a request that meets a live forward and a valid
connection handle invokes the new handler's callback, and the previous
handler's forward is never invoked or released again. -/
theorem handler_registration (env : HttpEnv) (context : Nat) (id : String) (function : Nat)
    (name description : String) (st : HttpState) :
    (id.length = 0 →
      Web_RegisterRequestHandler env context id function name description st = (0, st)) ∧
    (id.length ≠ 0 →
      (Web_RegisterRequestHandler env context id function name description st).1 = 1 ∧
      (Web_RegisterRequestHandler env context id function name description st).2.defaultHandler =
        some { callback := env.CreateForwardEx, name := name, description := description } ∧
      httpEmitted st (Web_RegisterRequestHandler env context id function name description st).2 =
        (match st.defaultHandler with
          | some a => [HttpEvent.ReleaseForward a.callback]
          | none => []) ++
        [.CreateForwardEx env.CreateForwardEx,
         .AddFunction env.CreateForwardEx context function] ∧
      (∀ reqs : List Request,
        (∀ e ∈ httpEmitted
            (Web_RegisterRequestHandler env context id function name description st).2
            (serve reqs (Web_RegisterRequestHandler env context id function name description st).2),
          eventForward e = none ∨ eventForward e = some env.CreateForwardEx) ∧
        (∀ a, st.defaultHandler = some a → a.callback ≠ env.CreateForwardEx →
          ∀ e ∈ httpEmitted
            (Web_RegisterRequestHandler env context id function name description st).2
            (serve reqs (Web_RegisterRequestHandler env context id function name description st).2),
          eventForward e ≠ some a.callback)) ∧
      (∀ r : Request, r.env.GetFunctionCount env.CreateForwardEx ≠ 0 →
        r.env.socket_context r.connection ≠ BAD_HANDLE →
        HttpEvent.Execute env.CreateForwardEx ∈ httpEmitted
          (Web_RegisterRequestHandler env context id function name description st).2
          (serve [r] (Web_RegisterRequestHandler env context id function name description st).2))) := by
  constructor
  · intro h0
    simp [Web_RegisterRequestHandler, h0]
  · intro h1
    have hreg : Web_RegisterRequestHandler env context id function name description st =
        (1, { defaultHandler :=
                some { callback := env.CreateForwardEx, name := name, description := description },
              events := st.events ++ ((match st.defaultHandler with
                | some a => [HttpEvent.ReleaseForward a.callback]
                | none => []) ++
                [.CreateForwardEx env.CreateForwardEx,
                 .AddFunction env.CreateForwardEx context function]) }) := by
      cases hh : st.defaultHandler <;>
        simp [Web_RegisterRequestHandler, h1, hh, PluginRequestHandler.new,
          PluginRequestHandler.delete, HttpState.emit]
    rw [hreg]
    refine ⟨rfl, rfl, by simp [httpEmitted], ?_, ?_⟩
    · intro reqs
      obtain ⟨new, hn, hf⟩ := serve_forward reqs
        { defaultHandler :=
            some { callback := env.CreateForwardEx, name := name, description := description },
          events := st.events ++ ((match st.defaultHandler with
            | some a => [HttpEvent.ReleaseForward a.callback]
            | none => []) ++
            [.CreateForwardEx env.CreateForwardEx,
             .AddFunction env.CreateForwardEx context function]) }
        env.CreateForwardEx (by intro h hh; cases hh; rfl)
      rw [httpEmitted_of_append _ _ _ hn]
      refine ⟨hf, ?_⟩
      intro a _ hne e hmem heq
      rcases hf e hmem with h | h
      · rw [h] at heq; cases heq
      · rw [h] at heq; exact hne (Option.some.inj heq).symm
    · intro r hc hb
      simp only [serve]
      by_cases hr : r.env.Execute env.CreateForwardEx (r.env.socket_context r.connection)
          r.method r.url = 0
      · rw [dispatch_unhandled _ _ _ _ _ _ rfl hc hb hr]
        simp [httpEmitted]
      · rw [dispatch_handled _ _ _ _ _ _ rfl hc hb hr]
        simp [httpEmitted]

/-- C10, at a concrete input: a handler on forward 1 is registered; registering
a handler under the id `b` releases forward 1 once, creates forward 2 and adds
the function to it. -/
theorem handler_registration_witness :
    httpEmitted sampleHttpState
        (Web_RegisterRequestHandler (sampleHttpEnv 1) 9 "b" 4 "b" "second" sampleHttpState).2 =
      [.ReleaseForward 1, .CreateForwardEx 2, .AddFunction 2 9 4] :=
  ((handler_registration (sampleHttpEnv 1) 9 "b" 4 "b" "second" sampleHttpState).2
    (by decide)).2.2.1

/-- C11. Exclusive disposition of pending sockets.  In one scan over a registry
with pairwise distinct sockets, for every entry and every peek outcome exactly
one of four things happens to it: (a) it stays in the registry (counter
incremented) and its socket is neither closed nor handed off; (b) it is removed
and its socket is closed exactly once and handed to no consumer; (c) it is
removed and its socket is handed to the HTTP server exactly once and not closed;
(d) it is removed and its socket is handed to the control-protocol server
exactly once and not closed.  Case (b) is that of a peer close, a hard receive
error, a timeout or an unknown protocol; (c) that of an HTTP or HTTPS buffer;
(d) that of a control-protocol buffer; (a) that of a short read without timeout.
`HandleFailedRconAuth` is called only when `rconServer` is set and only for the
address of an entry that timed out or had an unknown protocol; the iteration on
an entry whose peer closed or whose receive failed hard never calls it. -/
theorem exclusive_disposition (env : Env) (w : World) (p : PendingSocket)
    (hd : (w.pendingSockets.map (fun p => p.socket)).Nodup) (hp : p ∈ w.pendingSockets) :
    (((scan env w).pendingSockets.filter (fun q => decide (q.socket = p.socket)) =
          [{ p with timeout := wrapInt (p.timeout + 1) }] ∧
        closeCount p.socket (emitted w (scan env w)) = 0 ∧
        httpCount p.socket (emitted w (scan env w)) = 0 ∧
        engineCount p.socket (handedToEngine w (scan env w)) = 0) ∨
      ((scan env w).pendingSockets.filter (fun q => decide (q.socket = p.socket)) = [] ∧
        closeCount p.socket (emitted w (scan env w)) = 1 ∧
        httpCount p.socket (emitted w (scan env w)) = 0 ∧
        engineCount p.socket (handedToEngine w (scan env w)) = 0) ∨
      ((scan env w).pendingSockets.filter (fun q => decide (q.socket = p.socket)) = [] ∧
        closeCount p.socket (emitted w (scan env w)) = 0 ∧
        httpCount p.socket (emitted w (scan env w)) = 1 ∧
        engineCount p.socket (handedToEngine w (scan env w)) = 0) ∨
      ((scan env w).pendingSockets.filter (fun q => decide (q.socket = p.socket)) = [] ∧
        closeCount p.socket (emitted w (scan env w)) = 0 ∧
        httpCount p.socket (emitted w (scan env w)) = 0 ∧
        engineCount p.socket (handedToEngine w (scan env w)) = 1)) ∧
    (closeCount p.socket (emitted w (scan env w)) = 1 ↔
      verdict (env.recv p.socket) p = .peerClosed ∨ verdict (env.recv p.socket) p = .recvError ∨
      verdict (env.recv p.socket) p = .timedOut ∨ verdict (env.recv p.socket) p = .unknown) ∧
    (httpCount p.socket (emitted w (scan env w)) = 1 ↔
      verdict (env.recv p.socket) p = .http) ∧
    (engineCount p.socket (handedToEngine w (scan env w)) = 1 ↔
      verdict (env.recv p.socket) p = .rcon) ∧
    ((scan env w).pendingSockets.filter (fun q => decide (q.socket = p.socket)) ≠ [] ↔
      verdict (env.recv p.socket) p = .pending) ∧
    (∀ a, Event.HandleFailedRconAuth a ∈ emitted w (scan env w) ↔
      w.rconServer = true ∧ ∃ q ∈ w.pendingSockets, q.address = a ∧
        (verdict (env.recv q.socket) q = .timedOut ∨
          verdict (env.recv q.socket) q = .unknown)) ∧
    (∀ i, w.pendingSockets[i]? = some p →
      (verdict (env.recv p.socket) p = .peerClosed ∨
        verdict (env.recv p.socket) p = .recvError) →
      ∀ a, Event.HandleFailedRconAuth a ∉ emitted w (scanStep env i w)) := by
  obtain ⟨hc, hh, he, hs⟩ := scan_counts env w p hd hp
  rw [hc, hh, he, hs]
  refine ⟨?_, ?_, ?_, ?_, ?_, failedAuth_mem_scan_emitted env w, ?_⟩
  · cases verdict (env.recv p.socket) p <;> simp [verdictPending]
  · cases verdict (env.recv p.socket) p <;> simp
  · cases verdict (env.recv p.socket) p <;> simp
  · cases verdict (env.recv p.socket) p <;> simp
  · cases verdict (env.recv p.socket) p <;> simp [verdictPending]
  · intro i hi hv a hmem
    rw [scanStep_emitted env w i p hi] at hmem
    rcases List.mem_cons.1 hmem with h | h
    · cases h
    · rw [failedAuth_mem_verdictEvents] at h
      rcases hv with hv | hv <;> rw [hv] at h <;> simp at h

/-- C11, at a concrete input: sockets 7, 8, 9 are pending, 8 was closed by its
peer and the others delivered 5 bytes; the scan closes socket 8 exactly once. -/
theorem exclusive_disposition_witness :
    closeCount 8
      (emitted (sampleWorld [samplePending 7, samplePending 8, samplePending 9])
        (scan sampleEnvMixed
          (sampleWorld [samplePending 7, samplePending 8, samplePending 9]))) = 1 :=
  (exclusive_disposition sampleEnvMixed
    (sampleWorld [samplePending 7, samplePending 8, samplePending 9]) (samplePending 8)
    (by decide) (by decide)).2.1.2 (Or.inl (by decide))

end Webcon
